import Mathlib

/-!
Shallow embedding of the report-aggregation stage of civet3
(`civet/report_functions/report.py`), together with proofs of the
specification claims about it.

Modelling conventions:
* a CSV row produced by `csv.DictReader` is an association list from column
  name to cell value (`Row`); a Python `dict` is an association list with
  update-in-place-or-append semantics (`dictInsert`), matching insertion
  order and key uniqueness of Python dicts;
* Python exceptions become `Except PyError`; the error kinds mirror the
  exception classes the interpreter would raise (`KeyError`,
  `AttributeError`, `ValueError`, `NameError`, `FileNotFoundError`);
* `datetime.date` becomes `PyDate` (year/month/day), compared the way
  Python compares dates (lexicographically on the triple);
* the float expression `int(100*(i[1]/total))` is modelled in exact
  binary64 semantics: finite nonnegative doubles are the multiples of
  `2 ^ (-1074)` below `2 ^ 1024`, and `roundBin64` performs the IEEE-754
  round-to-nearest-ties-even rounding (so, e.g., 29 of 100 gives 28, as
  CPython does, not the exact floor 29);
* the filesystem, the timeline helper module (`timeline_functions`, not part
  of the excerpted sources) and the mako template engine are external
  collaborators; they enter as explicit parameters (`fs`, `tl`, `render`).
-/

namespace Civet

set_option maxRecDepth 100000
set_option exponentiation.threshold 5000

/-- Python exception kinds raised by the aggregation code. -/
inductive PyError where
  | keyError (k : String)
  | attributeError (m : String)
  | valueError (m : String)
  | nameError (m : String)
  | fileNotFoundError (p : String)
  | zeroDivisionError (m : String)
  | overflowError (m : String)
deriving DecidableEq, Repr

/-- A `csv.DictReader` row: column name to cell value, in column order. -/
abbrev Row := List (String × String)

/-- Lookup in a Python dict modelled as an association list
(first matching key; the `dictInsert` invariant keeps keys unique). -/
def dictGet {α : Type} (d : List (String × α)) (k : String) : Option α :=
  match d with
  | [] => none
  | p :: ps => if p.1 = k then some p.2 else dictGet ps k

/-- Python `d[k] = v`: update the existing entry in place, else append. -/
def dictInsert {α : Type} (d : List (String × α)) (k : String) (v : α) :
    List (String × α) :=
  match d with
  | [] => [(k, v)]
  | p :: ps => if p.1 = k then (k, v) :: ps else p :: dictInsert ps k v

/-- Python `table_row = {}` followed by `table_row[col] = row[col]` for each
column, accumulator form (source: `report.py` lines 23-26 and 40-43). -/
def projectRowAux (cols : List String) (row : Row) (acc : Row) :
    Except PyError Row :=
  match cols with
  | [] => .ok acc
  | c :: cs =>
    match dictGet row c with
    | none => .error (.keyError c)
    | some v => projectRowAux cs row (dictInsert acc c v)

/-- Project a row onto a configured column list; `KeyError` on a missing
column, exactly as `row[col]` would raise. -/
def projectRow (cols : List String) (row : Row) : Except PyError Row :=
  projectRowAux cols row []

/-- Project every row in the list, failing on the first bad row. -/
def projectRows (cols : List String) (rows : List Row) :
    Except PyError (List Row) :=
  match rows with
  | [] => .ok []
  | r :: rs =>
    match projectRow cols r with
    | .error e => .error e
    | .ok t =>
      match projectRows cols rs with
      | .error e => .error e
      | .ok ts => .ok (t :: ts)

/-- Embeds `make_query_summary_data` (`report.py` lines 17-30): keep the rows whose
`query_boolean` field is the literal string `"True"`, projected onto
`config["table_content"]`. -/
def make_query_summary_data (rows : List Row) (table_content : List String) :
    Except PyError (List Row) :=
  match rows with
  | [] => .ok []
  | r :: rs =>
    match dictGet r "query_boolean" with
    | none => .error (.keyError "query_boolean")
    | some qb =>
      if qb = "True" then
        match projectRow table_content r with
        | .error e => .error e
        | .ok t =>
          match make_query_summary_data rs table_content with
          | .error e => .error e
          | .ok ts => .ok (t :: ts)
      else make_query_summary_data rs table_content

/-- Embeds `make_fasta_summary_data` (`report.py` lines 32-49): partition the rows
with `source == "input_fasta"` by `qc_status == "Pass"`, each projected onto
`config["fasta_table_content"]`.  The projection happens before the
`qc_status` lookup, as in the source. -/
def make_fasta_summary_data (rows : List Row) (ftc : List String) :
    Except PyError (List Row × List Row) :=
  match rows with
  | [] => .ok ([], [])
  | r :: rs =>
    match dictGet r "source" with
    | none => .error (.keyError "source")
    | some src =>
      if src = "input_fasta" then
        match projectRow ftc r with
        | .error e => .error e
        | .ok t =>
          match dictGet r "qc_status" with
          | none => .error (.keyError "qc_status")
          | some qc =>
            match make_fasta_summary_data rs ftc with
            | .error e => .error e
            | .ok pf =>
              if qc = "Pass" then .ok (t :: pf.1, pf.2)
              else .ok (pf.1, t :: pf.2)
      else make_fasta_summary_data rs ftc

/-! ### Dates (`datetime.date`) -/

/-- A Python `datetime.date`. -/
structure PyDate where
  year : Nat
  month : Nat
  day : Nat
deriving DecidableEq, Repr

/-- Encoding that realizes Python's lexicographic date comparison (month
and day are below 100 after validation). -/
def PyDate.toNat (d : PyDate) : Nat := d.year * 10000 + d.month * 100 + d.day

def isLeapYear (y : Nat) : Bool :=
  (y % 4 == 0 && y % 100 != 0) || y % 400 == 0

def daysInMonth (y m : Nat) : Nat :=
  if m == 2 then (if isLeapYear y then 29 else 28)
  else if m == 4 || m == 6 || m == 9 || m == 11 then 30
  else 31

/-- Split a character list on a separator (the semantics of
`str.split('-')` for the single-character separator used here). -/
def splitSepAux (sep : Char) : List Char → List Char → List (List Char)
  | [], acc => [acc.reverse]
  | c :: cs, acc =>
    if c = sep then acc.reverse :: splitSepAux sep cs []
    else splitSepAux sep cs (c :: acc)

def splitSep (sep : Char) (cs : List Char) : List (List Char) :=
  splitSepAux sep cs []

def digitsToNat (cs : List Char) : Nat :=
  cs.foldl (fun n c => n * 10 + (c.toNat - 48)) 0

def parseNumField (cs : List Char) (len : Nat) : Option Nat :=
  if cs.length == len && cs.all Char.isDigit then some (digitsToNat cs)
  else none

/-- Embeds `datetime.date.fromisoformat`: strict `YYYY-MM-DD`, validating that the
month and day denote a real calendar date; `ValueError` otherwise. -/
def fromisoformat (s : String) : Except PyError PyDate :=
  match splitSep '-' s.toList with
  | [ys, ms, ds] =>
    match parseNumField ys 4, parseNumField ms 2, parseNumField ds 2 with
    | some y, some m, some d =>
      if 1 ≤ m && m ≤ 12 && 1 ≤ d && d ≤ daysInMonth y m then
        .ok ⟨y, m, d⟩
      else .error (.valueError s)
    | _, _, _ => .error (.valueError s)
  | _ => .error (.valueError s)

/-! ### Counters (`collections.Counter`) and the top-10 formatter -/

/-- A `collections.Counter`, in insertion order. -/
abbrev Counter := List (String × Nat)

/-- Python `counter[k] += 1` (a fresh key starts from the default 0). -/
def counterInc (c : Counter) (k : String) : Counter :=
  if c.any (fun p => p.1 == k) then
    c.map (fun p => if p.1 == k then (p.1, p.2 + 1) else p)
  else c ++ [(k, 1)]

/-- Stable insertion, descending by count (ties keep original order). -/
def insertByCount (x : String × Nat) : Counter → Counter
  | [] => [x]
  | y :: ys => if x.2 ≥ y.2 then x :: y :: ys else y :: insertByCount x ys

def sortByCountDesc : Counter → Counter
  | [] => []
  | x :: xs => insertByCount x (sortByCountDesc xs)

/-- Embeds `Counter.most_common(n)`: the n highest counts, in descending order,
ties in insertion order (documented as a stable reverse sort). -/
def most_common (c : Counter) (n : Nat) : Counter :=
  (sortByCountDesc c).take n

/-! #### Binary64 arithmetic

The percentage at `report.py` line 69 is `int(100*(i[1]/total))`: true
division of two Python ints (the correctly rounded binary64 of the exact
quotient), an IEEE-754 multiplication by the exact double `100.0`, and a
truncation toward zero.  A finite nonnegative double is represented
exactly by the natural number `k` with value `k / 2 ^ 1074` (every finite
double is a multiple of `2 ^ (-1074)`); `none` stands for positive
infinity.  Rounding is round-to-nearest, ties to even, with overflow to
infinity at `2 ^ 1024`, exactly as in IEEE-754 binary64. -/

/-- Whether `num / den ≥ 2 ^ c` for an integer exponent `c`. -/
def geShift (num den : Nat) (c : Int) : Bool :=
  if 0 ≤ c then den * 2 ^ c.toNat ≤ num
  else den ≤ num * 2 ^ (-c).toNat

/-- Floor of the base-2 logarithm of a positive natural, by structural
recursion on a fuel argument (any fuel of at least `log2 n` works; `n`
itself does). -/
def natLog2Aux : Nat → Nat → Nat
  | 0, _ => 0
  | fuel + 1, n => if n ≤ 1 then 0 else natLog2Aux fuel (n / 2) + 1

def natLog2 (n : Nat) : Nat := natLog2Aux n n

/-- Floor of the base-2 logarithm of `num / den` (both at least 1):
`natLog2 num - natLog2 den` or one less, fixed up by a direct
comparison. -/
def ratLog2 (num den : Nat) : Int :=
  let c : Int := (natLog2 num : Int) - (natLog2 den : Int)
  if geShift num den c then c else c - 1

/-- Round the nonnegative rational `num / den` (`den > 0`) to the binary64
grid, round-to-nearest ties-to-even: the result `k` encodes the double
`k / 2 ^ 1074`; `none` is an overflow to infinity (the value rounds, on an
unbounded exponent range, to at least `2 ^ 1024`).  The grid step is
`2 ^ (e - 52)` for `2 ^ e ≤ num / den < 2 ^ (e + 1)`, clamped at the
subnormal step `2 ^ (-1074)`. -/
def roundBin64 (num den : Nat) : Option Nat :=
  if num = 0 then some 0
  else
    let e := ratLog2 num den
    let g : Int := max (e - 52) (-1074)
    let s : Nat := (g + 1074).toNat
    let N := num * 2 ^ 1074
    let D := den * 2 ^ s
    let q := N / D
    let r := N % D
    let m := if 2 * r < D then q
             else if D < 2 * r then q + 1
             else if q % 2 = 0 then q else q + 1
    let k := m * 2 ^ s
    if 2 ^ 2098 ≤ k then none else some k

/-- CPython true division of two nonnegative ints (`long_true_divide`):
the correctly rounded binary64 of the exact quotient; `ZeroDivisionError`
on a zero divisor, `OverflowError` when the quotient is too large for a
float. -/
def pyIntTrueDiv (a b : Nat) : Except PyError Nat :=
  if b = 0 then .error (.zeroDivisionError "division by zero")
  else
    match roundBin64 a b with
    | some k => .ok k
    | none => .error
        (.overflowError "integer division result too large for a float")

/-- IEEE-754 multiplication of the exact double `100.0` by a nonnegative
finite double `k / 2 ^ 1074`; `none` is an overflow to infinity. -/
def pyMul100 (k : Nat) : Option Nat :=
  roundBin64 (100 * k) (2 ^ 1074)

/-- Python `int()` on a nonnegative float: truncation toward zero (the
floor, for nonnegative values); infinity raises `OverflowError`. -/
def pyTruncToInt : Option Nat → Except PyError Nat
  | some k => .ok (k / 2 ^ 1074)
  | none => .error (.overflowError "cannot convert float infinity to integer")

/-- The percentage expression of `report.py` line 69,
`int(100*(i[1]/total))`, in binary64 arithmetic. -/
def pyPcent (total count : Nat) : Except PyError Nat :=
  match pyIntTrueDiv count total with
  | .error e => .error e
  | .ok k => pyTruncToInt (pyMul100 k)

/-- Embeds the loop of `get_top_10_str` (`report.py` lines 67-72):
binary64 percentages; entries of at least 1% are appended to the summary
and debited from the remainder, the rest are skipped. -/
def top10Loop (total : Nat) :
    Counter → String → Int → Except PyError (String × Int)
  | [], summary, remainder => .ok (summary, remainder)
  | i :: is, summary, remainder =>
    match pyPcent total i.2 with
    | .error e => .error e
    | .ok pcent =>
      if pcent ≥ 1 then
        top10Loop total is
          (summary ++ i.1 ++ " " ++ toString pcent ++ "% <br>")
          (remainder - pcent)
      else top10Loop total is summary remainder

/-- Embeds `get_top_10_str` (`report.py` lines 64-74). -/
def get_top_10_str (total : Nat) (counter_dict : Counter) :
    Except PyError String :=
  match top10Loop total (most_common counter_dict 10) "" 100 with
  | .error e => .error e
  | .ok r => .ok (r.1 ++ "Other " ++ toString r.2 ++ "% <br>")

/-- The emitted lines as the original claim words them, with the
percentage as the exact floor of `100 * count / total`: each top entry
with a percentage of at least 1 becomes one line. -/
def top10Lines (total : Nat) : Counter → String
  | [] => ""
  | i :: is =>
    (if 100 * i.2 / total ≥ 1 then
       i.1 ++ " " ++ toString (100 * i.2 / total) ++ "% <br>"
     else "") ++ top10Lines total is

/-- The remainder as the original claim words it: 100 debited by the
exact-floor percentage of every top entry (the sub-1% ones included). -/
def top10Debit (total : Nat) (top : Counter) : Int :=
  top.foldl (fun r i => r - ((100 * i.2 / total : Nat) : Int)) 100

/-- The original claim's description of the formatter — percentages as
exact floors — to be compared against `get_top_10_str`. -/
def top10Claim (total : Nat) (c : Counter) : String :=
  top10Lines total (most_common c 10) ++ "Other " ++
    toString (top10Debit total (most_common c 10)) ++ "% <br>"

/-- The amended claim's description of the formatter loop: each top
entry's binary64 percentage is computed in order; the at-least-1% ones
become lines; every percentage is debited from 100 (the skipped ones are
exactly 0, so this coincides with the code's debit of only the emitted
entries); then a trailing Other line is appended. -/
def top10ClaimLoop (total : Nat) : Counter → Except PyError (String × Int)
  | [] => .ok ("", 100)
  | i :: is =>
    match pyPcent total i.2 with
    | .error e => .error e
    | .ok p =>
      match top10ClaimLoop total is with
      | .error e => .error e
      | .ok r =>
        .ok ((if p ≥ 1 then i.1 ++ " " ++ toString p ++ "% <br>" else "")
            ++ r.1,
          r.2 - p)

/-- The amended claim's description of the whole formatter, to be compared
against `get_top_10_str`. -/
def top10ClaimF (total : Nat) (c : Counter) : Except PyError String :=
  match top10ClaimLoop total (most_common c 10) with
  | .error e => .error e
  | .ok r => .ok (r.1 ++ "Other " ++ toString r.2 ++ "% <br>")

/-! ### `make_catchment_summary_data` -/

/-- Per-catchment working summary while scanning the CSV
(the Python per-catchment dict, lines 80-120).  `none` stands for a key
that is absent or holds the falsy `''`. -/
structure CatchSumm where
  total : Nat
  earliest_date : Option PyDate
  latest_date : Option PyDate
  locCounter : Option Counter
  lineageCounter : Option Counter
deriving DecidableEq, Repr

def initSumm : CatchSumm :=
  { total := 0, earliest_date := none, latest_date := none,
    locCounter := none, lineageCounter := none }

abbrev CSDict := List (String × CatchSumm)

/-- The initialization loop (`report.py` lines 79-82). -/
def initDict (catchments : List String) : CSDict :=
  catchments.foldl (fun d c => dictInsert d c initSumm) []

/-- Embeds `check_earliest_latest_dates` (`report.py` lines 51-62), acting on the
summary entry the Python code indexes by `catchment`. -/
def check_earliest_latest_dates (d : PyDate) (s : CatchSumm) : CatchSumm :=
  let s1 :=
    match s.earliest_date with
    | some e => if d.toNat < e.toNat then { s with earliest_date := some d } else s
    | none => { s with earliest_date := some d }
  match s1.latest_date with
  | some l => if d.toNat > l.toNat then { s1 with latest_date := some d } else s1
  | none => { s1 with latest_date := some d }

/-- Date branch of the row loop (`report.py` lines 94-100). -/
def dateStep (date_column : String) (fieldnames : List String) (row : Row)
    (s : CatchSumm) : Except PyError CatchSumm :=
  if fieldnames.contains date_column then
    match dictGet row date_column with
    | none => .error (.keyError date_column)
    | some ds =>
      match fromisoformat ds with
      | .error e => .error e
      | .ok d => .ok (check_earliest_latest_dates d s)
  else .ok s

/-- Location branch of the row loop (`report.py` lines 102-109): the empty
string is tallied as the category `"Unknown"`. -/
def locStep (location_column : String) (fieldnames : List String) (row : Row)
    (s : CatchSumm) : Except PyError CatchSumm :=
  if fieldnames.contains location_column then
    match dictGet row location_column with
    | none => .error (.keyError location_column)
    | some v =>
      let k := if v = "" then "Unknown" else v
      .ok { s with locCounter := some (counterInc (s.locCounter.getD []) k) }
  else .ok s

/-- Lineage branch of the row loop (`report.py` lines 111-115). -/
def lineageStep (fieldnames : List String) (row : Row) (s : CatchSumm) :
    Except PyError CatchSumm :=
  if fieldnames.contains "lineage" then
    match dictGet row "lineage" with
    | none => .error (.keyError "lineage")
    | some v =>
      .ok { s with lineageCounter := some (counterInc (s.lineageCounter.getD []) v) }
  else .ok s

/-- One row of the scan loop (`report.py` lines 87-120).  The SNPs branch
(lines 117-120) stores `collections.defaultdict(list)` under the `"SNPs"`
key and then calls `.append` on that defaultdict, which raises
`AttributeError` on the first non-query row whenever a `SNPs` column is in
the header. -/
def processRow (date_column location_column : String)
    (fieldnames : List String) (dict : CSDict) (row : Row) :
    Except PyError CSDict :=
  match dictGet row "query_boolean" with
  | none => .error (.keyError "query_boolean")
  | some qb =>
    if qb = "False" then
      match dictGet row "catchment" with
      | none => .error (.keyError "catchment")
      | some catchment =>
        match dictGet dict catchment with
        | none => .error (.keyError catchment)
        | some s0 =>
          match dateStep date_column fieldnames row { s0 with total := s0.total + 1 } with
          | .error e => .error e
          | .ok s2 =>
            match locStep location_column fieldnames row s2 with
            | .error e => .error e
            | .ok s3 =>
              match lineageStep fieldnames row s3 with
              | .error e => .error e
              | .ok s4 =>
                if fieldnames.contains "SNPs" then
                  .error (.attributeError
                    "collections.defaultdict object has no attribute append")
                else .ok (dictInsert dict catchment s4)
    else .ok dict

/-- The `for row in reader` loop. -/
def runRows (date_column location_column : String) (fieldnames : List String)
    (rows : List Row) (dict : CSDict) : Except PyError CSDict :=
  match rows with
  | [] => .ok dict
  | r :: rs =>
    match processRow date_column location_column fieldnames dict r with
    | .error e => .error e
    | .ok d2 => runRows date_column location_column fieldnames rs d2

/-- The rendered per-catchment summary after the post-loop conversion of
the counters to top-10 strings (`report.py` lines 122-128). -/
structure CatchSummOut where
  total : Nat
  earliest_date : Option PyDate
  latest_date : Option PyDate
  locStr : Option String
  lineageStr : Option String
deriving DecidableEq, Repr

def finalizeSumm (s : CatchSumm) : Except PyError CatchSummOut :=
  match (match s.locCounter with
         | none => .ok none
         | some c =>
           match get_top_10_str s.total c with
           | .error e => .error e
           | .ok str => .ok (some str) : Except PyError (Option String)) with
  | .error e => .error e
  | .ok loc =>
    match (match s.lineageCounter with
           | none => .ok none
           | some c =>
             match get_top_10_str s.total c with
             | .error e => .error e
             | .ok str => .ok (some str) : Except PyError (Option String)) with
    | .error e => .error e
    | .ok lin =>
      .ok { total := s.total
            earliest_date := s.earliest_date
            latest_date := s.latest_date
            locStr := loc
            lineageStr := lin }

/-- The post-loop conversion over every catchment entry, in dictionary
order, aborting on the first failure. -/
def finalizeAll : CSDict → Except PyError (List (String × CatchSummOut))
  | [] => .ok []
  | p :: ps =>
    match finalizeSumm p.2 with
    | .error e => .error e
    | .ok o =>
      match finalizeAll ps with
      | .error e => .error e
      | .ok os => .ok ((p.1, o) :: os)

/-- Embeds `make_catchment_summary_data` (`report.py` lines 76-131). -/
def make_catchment_summary_data (date_column location_column : String)
    (fieldnames : List String) (rows : List Row) (catchments : List String) :
    Except PyError (List (String × CatchSummOut)) :=
  match runRows date_column location_column fieldnames rows (initDict catchments) with
  | .error e => .error e
  | .ok d => finalizeAll d

/-! ### Config and `get_background_data` -/

/-- The config keys the aggregator consumes (spec section 6). -/
structure Config where
  table_content : List String
  fasta_table_content : List String
  report_content : String
  date_column : String
  location_column : String
  report_column : String
  background_column : String
  catchment_count : Nat
  data_outdir : String

/-- The column subset kept by the background projection
(`report.py` lines 165-168): of report column, `lineage`, location column
and date column, those present in the header, in that order. -/
def bgColumns (cfg : Config) (fieldnames : List String) : List String :=
  [cfg.report_column, "lineage", cfg.location_column, cfg.date_column].filter
    (fun i => fieldnames.contains i)

/-- One row of the background loop (`report.py` lines 169-178): project the
row onto the background columns, add the `Query` flag, and compute the dict
key (report column for query rows, background column otherwise). -/
def bgEntry (cfg : Config) (fieldnames : List String) (row : Row) :
    Except PyError (String × Row) :=
  match projectRow (bgColumns cfg fieldnames) row with
  | .error e => .error e
  | .ok data =>
    match dictGet row "query_boolean" with
    | none => .error (.keyError "query_boolean")
    | some qb =>
      if qb = "True" then
        match dictGet row cfg.report_column with
        | none => .error (.keyError cfg.report_column)
        | some k => .ok (k, dictInsert data "Query" "True")
      else
        match dictGet row cfg.background_column with
        | none => .error (.keyError cfg.background_column)
        | some k => .ok (k, dictInsert data "Query" "False")

def gbLoop (cfg : Config) (fieldnames : List String) (rows : List Row)
    (acc : List (String × Row)) : Except PyError (List (String × Row)) :=
  match rows with
  | [] => .ok acc
  | r :: rs =>
    match bgEntry cfg fieldnames r with
    | .error e => .error e
    | .ok kv => gbLoop cfg fieldnames rs (dictInsert acc kv.1 kv.2)

/-- Embeds `get_background_data` (`report.py` lines 160-180), returning the
mapping that the source serializes with `json.dumps`. -/
def get_background_data (cfg : Config) (fieldnames : List String)
    (rows : List Row) : Except PyError (List (String × Row)) :=
  gbLoop cfg fieldnames rows []

/-! ### The report document and `define_report_content` -/

/-- A value stored in one catchment's sub-dictionary. -/
inductive CatchVal where
  | str (s : String)
  | summary (s : CatchSummOut)
deriving DecidableEq, Repr

/-- A top-level value of `data_for_report`. -/
inductive TopVal where
  | str (s : String)
  | rowsv (rs : List Row)
  | sub (d : List (String × CatchVal))
deriving DecidableEq, Repr

abbrev Doc := List (String × TopVal)

/-- Store field `k := v` inside a top-level value when it is a
sub-dictionary (the only case the source exercises). -/
def updTop (k : String) (v : CatchVal) : TopVal → TopVal
  | .sub s => .sub (dictInsert s k v)
  | x => x

/-- Python `data_for_report[c][k] = v` for the entry keyed `c`. -/
def setCatchField (d : Doc) (c k : String) (v : CatchVal) : Doc :=
  d.map (fun p => if p.1 = c then (p.1, updTop k v p.2) else p)

/-- Python `for catchment in catchments: data_for_report[catchment][k] = v`. -/
def setAllCatch (catchments : List String) (k : String) (v : CatchVal)
    (d : Doc) : Doc :=
  catchments.foldl (fun d c => setCatchField d c k v) d

/-- Per-catchment loop that computes a value for each catchment and stores
it under field `k`, aborting on the first failure (shape shared by the
`'2'`-`'5'` sections). -/
def setEachM (cats : List String) (k : String)
    (g : String → Except PyError CatchVal) (d : Doc) : Except PyError Doc :=
  match cats with
  | [] => .ok d
  | c :: cs =>
    match g c with
    | .error e => .error e
    | .ok v => setEachM cs k g (setCatchField d c k v)

/-- The initialization loop of `define_report_content`
(`report.py` lines 185-190): `catchment_id` is incremented before use, so
the i-th catchment (0-based) receives id i+1. -/
def initCatchDoc (catchments : List String) : Doc :=
  catchments.enum.foldl
    (fun d p =>
      dictInsert d p.2
        (.sub [("catchmentID", .str ("catchment_" ++ toString (p.1 + 1)))]))
    []

/-- Strip trailing newline characters (`str.rstrip("\n")`). -/
def rstripNL (s : String) : String :=
  String.mk ((s.toList.reverse.dropWhile (fun c => c == '\x0a')).reverse)

/-- Inline a file given as its line list: each line loses its trailing
newline and gains exactly one (`report.py` lines 145-148 and 153-157). -/
def joinLines (ls : List String) : String :=
  ls.foldl (fun acc l => acc ++ rstripNL l ++ "\x0a") ""

/-- Python `c in s` for a one-character flag: membership of the character
in the selector string. -/
def strContainsChar (s : String) (c : Char) : Bool := s.toList.contains c

/-- Section `'1'` (`report.py` lines 192-197). -/
def section1 (cfg : Config) (rows : List Row) (d : Doc) : Except PyError Doc :=
  if strContainsChar cfg.report_content '1' then
    match make_query_summary_data rows cfg.table_content with
    | .error e => .error e
    | .ok q =>
      match make_fasta_summary_data rows cfg.fasta_table_content with
      | .error e => .error e
      | .ok pf =>
        .ok (dictInsert (dictInsert (dictInsert d
              "query_summary_data" (.rowsv q))
              "fasta_summary_pass" (.rowsv pf.1))
              "fasta_summary_fail" (.rowsv pf.2))
  else
    .ok (dictInsert (dictInsert (dictInsert d
          "query_summary_data" (.str ""))
          "fasta_summary_pass" (.str ""))
          "fasta_summary_fail" (.str ""))

/-- Section `'2'` (`report.py` lines 199-211). -/
def section2 (cfg : Config) (fieldnames : List String) (rows : List Row)
    (catchments : List String) (d : Doc) : Except PyError Doc :=
  if strContainsChar cfg.report_content '2' then
    match make_catchment_summary_data cfg.date_column cfg.location_column
        fieldnames rows catchments with
    | .error e => .error e
    | .ok cs =>
      setEachM catchments "catchment_summary_data"
        (fun c =>
          match dictGet cs c with
          | none => .error (.keyError c)
          | some s => .ok (.summary s)) d
  else .ok (setAllCatch catchments "catchment_summary_data" (.str "") d)

/-- Embeds `get_newick` (`report.py` lines 151-158) over the abstract filesystem
`fs` (path to line list); a missing artifact is fatal. -/
def get_newick (catchments : List String) (d : Doc) (cfg : Config)
    (fs : String → Option (List String)) : Except PyError Doc :=
  setEachM catchments "newick"
    (fun c =>
      match fs (cfg.data_outdir ++ "/catchments/" ++ c ++ ".tree") with
      | none => .error (.fileNotFoundError
          (cfg.data_outdir ++ "/catchments/" ++ c ++ ".tree"))
      | some ls => .ok (.str (rstripNL (joinLines ls)))) d

/-- Embeds `get_snipit` (`report.py` lines 142-149): as `get_newick` but without
the final newline strip. -/
def get_snipit (catchments : List String) (d : Doc) (cfg : Config)
    (fs : String → Option (List String)) : Except PyError Doc :=
  setEachM catchments "snipit_svg"
    (fun c =>
      match fs (cfg.data_outdir ++ "/snipit/" ++ c ++ ".snipit.svg") with
      | none => .error (.fileNotFoundError
          (cfg.data_outdir ++ "/snipit/" ++ c ++ ".snipit.svg"))
      | some ls => .ok (.str (joinLines ls))) d

/-- Section `'3'` (`report.py` lines 213-217). -/
def section3 (cfg : Config) (catchments : List String)
    (fs : String → Option (List String)) (d : Doc) : Except PyError Doc :=
  if strContainsChar cfg.report_content '3' then get_newick catchments d cfg fs
  else .ok (setAllCatch catchments "newick" (.str "") d)

/-- Section `'4'` (`report.py` lines 219-223). -/
def section4 (cfg : Config) (catchments : List String)
    (fs : String → Option (List String)) (d : Doc) : Except PyError Doc :=
  if strContainsChar cfg.report_content '4' then get_snipit catchments d cfg fs
  else .ok (setAllCatch catchments "snipit_svg" (.str "") d)

/-- Section `'5'` (`report.py` lines 225-230).  `tl` abstracts
`get_timeline` (the `timeline_functions` module is an external
collaborator of this file). -/
def section5 (cfg : Config) (catchments : List String)
    (tl : String → Except PyError String) (d : Doc) : Except PyError Doc :=
  if strContainsChar cfg.report_content '5' then
    setEachM catchments "timeline_data"
      (fun c =>
        match tl c with
        | .error e => .error e
        | .ok t => .ok (.str t)) d
  else .ok (setAllCatch catchments "timeline_data" (.str "") d)

/-- Sections `'6'` and `'7'` (`report.py` lines 232-240): both branches of
both sections write the empty string, and they index `data_for_report` by
the leftover loop variable `catchment` — the last catchment when the list
is non-empty, and an unbound name (`NameError`) when it is empty. -/
def sections67 (cfg : Config) (catchments : List String) (d : Doc) :
    Except PyError Doc :=
  match catchments.getLast? with
  | none => .error (.nameError "name catchment is not defined")
  | some cl =>
    let d6 :=
      if strContainsChar cfg.report_content '6' then
        setCatchField d cl "map_background" (.str "")
      else setCatchField d cl "map_background" (.str "")
    let d7 :=
      if strContainsChar cfg.report_content '7' then
        setCatchField d6 cl "map_queries" (.str "")
      else setCatchField d6 cl "map_queries" (.str "")
    .ok d7

/-- Embeds `define_report_content` (`report.py` lines 183-242). -/
def define_report_content (cfg : Config) (fieldnames : List String)
    (rows : List Row) (catchments : List String)
    (fs : String → Option (List String))
    (tl : String → Except PyError String) : Except PyError Doc :=
  match section1 cfg rows (initCatchDoc catchments) with
  | .error e => .error e
  | .ok d1 =>
    match section2 cfg fieldnames rows catchments d1 with
    | .error e => .error e
    | .ok d2 =>
      match section3 cfg catchments fs d2 with
      | .error e => .error e
      | .ok d3 =>
        match section4 cfg catchments fs d3 with
        | .error e => .error e
        | .ok d4 =>
          match section5 cfg catchments tl d4 with
          | .error e => .error e
          | .ok d5 => sections67 cfg catchments d5

/-! ### `make_report` -/

/-- A frame of a mako `RichTraceback`. -/
structure TBFrame where
  filename : String
  lineno : Nat
  funcName : String
  line : String
deriving DecidableEq, Repr

/-- Outcome of `mytemplate.render_context(ctx)`: either the buffer holds
the full rendering, or an exception left a diagnostic traceback and
whatever content had been buffered so far. -/
inductive RenderResult where
  | ok (content : String)
  | err (buffered : String) (frames : List TBFrame) (errName errMsg : String)
deriving DecidableEq, Repr

/-- The two lines printed per traceback frame (`report.py` 276-278). -/
def formatFrame (f : TBFrame) : List String :=
  ["File " ++ f.filename ++ ", line " ++ toString f.lineno ++ ", in " ++
     f.funcName,
   f.line]

def formatTraceback (frames : List TBFrame) (errName errMsg : String) :
    List String :=
  frames.foldr (fun f acc => formatFrame f ++ acc) [] ++
    [errName ++ ": " ++ errMsg]

/-- What `make_report` leaves behind: the text written to the output path
and the lines printed to standard output. -/
structure ReportOutput where
  fileContent : String
  stdoutLines : List String
deriving DecidableEq, Repr

/-- The catchment list built at `report.py` line 248. -/
def mkCatchments (n : Nat) : List String :=
  (List.range n).map (fun i => "catchment_" ++ toString (i + 1))

/-- Embeds `make_report` (`report.py` lines 245-282).  Aggregation errors
propagate (fail fast); a failing render is caught: the traceback is
printed and the partial buffer is still written. -/
def make_report (cfg : Config) (fieldnames : List String) (rows : List Row)
    (fs : String → Option (List String))
    (tl : String → Except PyError String)
    (render : Doc → List (String × Row) → RenderResult) :
    Except PyError ReportOutput :=
  match define_report_content cfg fieldnames rows
      (mkCatchments cfg.catchment_count) fs tl with
  | .error e => .error e
  | .ok dfr =>
    match get_background_data cfg fieldnames rows with
    | .error e => .error e
    | .ok bg =>
      match render dfr bg with
      | .ok content => .ok { fileContent := content, stdoutLines := [] }
      | .err buffered frames en em =>
        .ok { fileContent := buffered,
              stdoutLines := formatTraceback frames en em }

/-- Field lookup inside one catchment's sub-dictionary of a document. -/
def docField (d : Doc) (c k : String) : Option CatchVal :=
  match dictGet d c with
  | some (.sub s) => dictGet s k
  | _ => none

/-- The last row of the metadata whose background key is `k`, as the value
its `bgEntry` would contribute — the "later rows win" reading of the
background projection. -/
def bgLast (cfg : Config) (fieldnames : List String) (rows : List Row)
    (k : String) : Option Row :=
  rows.foldl
    (fun o r =>
      match bgEntry cfg fieldnames r with
      | .ok kv => if kv.1 = k then some kv.2 else o
      | .error _ => o)
    none

/-- Row filters used to state the fasta partition. -/
def isFastaPass (r : Row) : Bool :=
  dictGet r "source" == some "input_fasta" && dictGet r "qc_status" == some "Pass"

def isFastaFail (r : Row) : Bool :=
  dictGet r "source" == some "input_fasta" && !(dictGet r "qc_status" == some "Pass")

def isQueryRow (r : Row) : Bool :=
  dictGet r "query_boolean" == some "True"

/-- Parse a list of date strings, failing on the first bad one
(the order in which the row loop parses them). -/
def parseDates : List String → Except PyError (List PyDate)
  | [] => .ok []
  | d :: ds =>
    match fromisoformat d with
    | .error e => .error e
    | .ok p =>
      match parseDates ds with
      | .error e => .error e
      | .ok ps => .ok (p :: ps)

/-- Running minimum of a non-empty date list, Python `<` on dates. -/
def dateMinFold (p : PyDate) (ps : List PyDate) : PyDate :=
  ps.foldl (fun a b => if b.toNat < a.toNat then b else a) p

/-- Running maximum of a non-empty date list, Python `>` on dates. -/
def dateMaxFold (p : PyDate) (ps : List PyDate) : PyDate :=
  ps.foldl (fun a b => if b.toNat > a.toNat then b else a) p

/-- One non-query row of the date-tracking loop: bump the total, then fold
the parsed date into the earliest/latest tracking. -/
def dStep (a : CatchSumm) (p : PyDate) : CatchSumm :=
  check_earliest_latest_dates p { a with total := a.total + 1 }

/-- The earliest-date update for one parsed date: first seen wins, then
min. -/
def minItem (p : PyDate) : Option PyDate → PyDate
  | none => p
  | some e => if p.toNat < e.toNat then p else e

/-- The latest-date update for one parsed date: first seen wins, then
max. -/
def maxItem (p : PyDate) : Option PyDate → PyDate
  | none => p
  | some l => if p.toNat > l.toNat then p else l

/-- First-seen-wins initialization followed by min updates. -/
def optMinUpd : Option PyDate → List PyDate → Option PyDate
  | o, [] => o
  | some e, p :: t => some (dateMinFold e (p :: t))
  | none, p :: t => some (dateMinFold p t)

/-- First-seen-wins initialization followed by max updates. -/
def optMaxUpd : Option PyDate → List PyDate → Option PyDate
  | o, [] => o
  | some e, p :: t => some (dateMaxFold e (p :: t))
  | none, p :: t => some (dateMaxFold p t)

/-- Header of the date-tracking scenario of claim C7. -/
def fn7 : List String := ["query_boolean", "catchment", "sample_date"]

/-- Config of the background-collision witness of claim C6: report and
background key column are both `name`. -/
def cfg6 : Config :=
  { table_content := [], fasta_table_content := [], report_content := "",
    date_column := "sample_date", location_column := "adm1",
    report_column := "name", background_column := "name",
    catchment_count := 0, data_outdir := "" }

def fn6 : List String := ["name", "query_boolean"]

/-- Two rows sharing the background key `"dup"`: a query row followed by a
non-query row. -/
def rows6 : List Row :=
  [[("name", "dup"), ("query_boolean", "True")],
   [("name", "dup"), ("query_boolean", "False")]]

/-- A non-query metadata row of catchment 1 carrying one date value. -/
def dateRow (ds : String) : Row :=
  [("query_boolean", "False"), ("catchment", "catchment_1"),
   ("sample_date", ds)]

/-- Config of the render-failure and empty-catchment witnesses: no content
flags, one catchment. -/
def cfg8 : Config :=
  { table_content := [], fasta_table_content := [], report_content := "",
    date_column := "sample_date", location_column := "adm1",
    report_column := "name", background_column := "name",
    catchment_count := 1, data_outdir := "" }

/-- An empty filesystem (no artifact files). -/
def fs0 : String → Option (List String) := fun _ => none

/-- A timeline reader that would fail if consulted. -/
def tl0 : String → Except PyError String :=
  fun _ => .error (.keyError "timeline")

/-- A renderer whose `render_context` raises after buffering partial
output. -/
def render8 : Doc → List (String × Row) → RenderResult :=
  fun _ _ =>
    .err "PARTIAL"
      [⟨"template.html", 3, "render_body", "broken line"⟩]
      "ZeroDivisionError" "division by zero"

/-- A renderer that succeeds with empty output. -/
def render0 : Doc → List (String × Row) → RenderResult :=
  fun _ _ => .ok ""

/-- The document `define_report_content` produces for `cfg8` on an empty
metadata file. -/
def dfr8 : Doc :=
  [("catchment_1", .sub
      [("catchmentID", .str "catchment_1"),
       ("catchment_summary_data", .str ""),
       ("newick", .str ""),
       ("snipit_svg", .str ""),
       ("timeline_data", .str ""),
       ("map_background", .str ""),
       ("map_queries", .str "")]),
   ("query_summary_data", .str ""),
   ("fasta_summary_pass", .str ""),
   ("fasta_summary_fail", .str "")]

/-- The entry at `c` holds a sub-dictionary. -/
def isSubAt (d : Doc) (c : String) : Prop :=
  ∃ s, dictGet d c = some (.sub s)

/-- Config of the claim-C1 scenario: content selector `"1"` only, two
catchments. -/
def cfg1 : Config :=
  { table_content := [], fasta_table_content := [], report_content := "1",
    date_column := "sample_date", location_column := "adm1",
    report_column := "name", background_column := "name",
    catchment_count := 2, data_outdir := "" }

/-- The document `define_report_content` produces for `cfg1` on an empty
metadata file and catchments `catchment_1`, `catchment_2`: only the last
catchment receives the `map_background`/`map_queries` keys. -/
def dC1 : Doc :=
  [("catchment_1", .sub
      [("catchmentID", .str "catchment_1"),
       ("catchment_summary_data", .str ""),
       ("newick", .str ""),
       ("snipit_svg", .str ""),
       ("timeline_data", .str "")]),
   ("catchment_2", .sub
      [("catchmentID", .str "catchment_2"),
       ("catchment_summary_data", .str ""),
       ("newick", .str ""),
       ("snipit_svg", .str ""),
       ("timeline_data", .str ""),
       ("map_background", .str ""),
       ("map_queries", .str "")]),
   ("query_summary_data", .rowsv []),
   ("fasta_summary_pass", .rowsv []),
   ("fasta_summary_fail", .rowsv [])]

/-! ## Theorems -/

theorem string_empty_append (s : String) : "" ++ s = s := by
  cases s; rfl

theorem dictGet_dictInsert {α : Type} (d : List (String × α)) (k : String)
    (v : α) (k2 : String) :
    dictGet (dictInsert d k v) k2 = if k2 = k then some v else dictGet d k2 := by
  induction d with
  | nil =>
    simp only [dictInsert, dictGet]
    by_cases h : k2 = k
    · rw [if_pos h.symm, if_pos h]
    · rw [if_neg (fun q => h q.symm), if_neg h]
  | cons p ps ih =>
    simp only [dictInsert]
    by_cases hp : p.1 = k
    · rw [if_pos hp]
      simp only [dictGet]
      by_cases h2 : k2 = k
      · rw [if_pos h2.symm, if_pos h2]
      · rw [if_neg (fun q => h2 q.symm), if_neg h2,
          if_neg (fun q => h2 (hp.symm.trans q).symm)]
    · rw [if_neg hp]
      simp only [dictGet, ih]
      by_cases h2 : p.1 = k2
      · rw [if_pos h2, if_neg (fun q => hp (h2.trans q)), if_pos h2]
      · rw [if_neg h2]
        by_cases h3 : k2 = k
        · rw [if_pos h3, if_pos h3]
        · rw [if_neg h3, if_neg h3, if_neg h2]

theorem mem_keys_dictInsert {α : Type} (d : List (String × α)) (k : String)
    (v : α) (a : String) :
    a ∈ (dictInsert d k v).map Prod.fst ↔ a ∈ d.map Prod.fst ∨ a = k := by
  induction d with
  | nil => simp [dictInsert]
  | cons p ps ih =>
    simp only [dictInsert]
    by_cases hp : p.1 = k
    · rw [if_pos hp]
      simp only [List.map_cons, List.mem_cons, hp]
      tauto
    · rw [if_neg hp]
      simp only [List.map_cons, List.mem_cons, ih]
      tauto

theorem nodup_keys_dictInsert {α : Type} (d : List (String × α)) (k : String)
    (v : α) (h : (d.map Prod.fst).Nodup) :
    ((dictInsert d k v).map Prod.fst).Nodup := by
  induction d with
  | nil => simp [dictInsert]
  | cons p ps ih =>
    simp only [List.map_cons, List.nodup_cons] at h
    simp only [dictInsert]
    by_cases hp : p.1 = k
    · rw [if_pos hp]
      simp only [List.map_cons, List.nodup_cons]
      exact ⟨hp ▸ h.1, h.2⟩
    · rw [if_neg hp]
      simp only [List.map_cons, List.nodup_cons]
      refine ⟨?_, ih h.2⟩
      rw [mem_keys_dictInsert]
      rintro (hm | hm)
      · exact h.1 hm
      · exact hp hm

theorem dictInsert_eq_append {α : Type} (d : List (String × α)) (k : String)
    (v : α) (h : k ∉ d.map Prod.fst) : dictInsert d k v = d ++ [(k, v)] := by
  induction d with
  | nil => simp [dictInsert]
  | cons p ps ih =>
    simp only [List.map_cons, List.mem_cons] at h
    push_neg at h
    have hne : p.1 ≠ k := fun hq => h.1 hq.symm
    simp [dictInsert, hne, ih h.2]

/-! ### Claim C3: the top-10 formatter -/

theorem top10Loop_eq_claimLoop (total : Nat) (l : Counter) :
    ∀ (s : String) (rem : Int),
    top10Loop total l s rem =
      match top10ClaimLoop total l with
      | .error e => .error e
      | .ok r => .ok (s ++ r.1, rem - (100 - r.2)) := by
  induction l with
  | nil =>
    intro s rem
    simp only [top10Loop, top10ClaimLoop]
    rw [String.append_empty]
    norm_num
  | cons i is ih =>
    intro s rem
    simp only [top10Loop, top10ClaimLoop]
    cases hp : pyPcent total i.2 with
    | error e => rfl
    | ok p =>
      dsimp only
      by_cases h1 : p ≥ 1
      · rw [if_pos h1, if_pos h1, ih]
        cases hc : top10ClaimLoop total is with
        | error e => rfl
        | ok r =>
          simp only [Except.ok.injEq, Prod.mk.injEq]
          constructor
          · simp [String.append_assoc]
          · omega
      · have hz : p = 0 := Nat.lt_one_iff.mp (Nat.not_le.mp h1)
        subst hz
        rw [if_neg h1, if_neg h1, ih]
        cases hc : top10ClaimLoop total is with
        | error e => rfl
        | ok r =>
          simp only [Except.ok.injEq, Prod.mk.injEq]
          constructor
          · rw [string_empty_append]
          · omega

/-- C3 (amended): `get_top_10_str` emits the at most 10 most frequent
categories as `"<label> <percent>% <br>"` lines, with the percent computed
as `int(100*(count/total))` in binary64 floating point — which can fall
one below the exact floor (29 of 100 gives 28, not 29) — omits the
entries whose percent is below 1 (their percent is exactly 0, so debiting
them changes nothing) and always appends a trailing
`"Other <remainder>% <br>"`; the spec's two concrete examples hold. -/
theorem C3_top10_formatter (total : Nat) (c : Counter) (h : 0 < total) :
    get_top_10_str total c = top10ClaimF total c ∧
    get_top_10_str 100 [("A", 50), ("B", 30), ("C", 20)] =
      .ok "A 50% <br>B 30% <br>C 20% <br>Other 0% <br>" ∧
    get_top_10_str 100 [("X", 100)] = .ok "X 100% <br>Other 0% <br>" := by
  refine ⟨?_, by rfl, by rfl⟩
  unfold get_top_10_str top10ClaimF
  rw [top10Loop_eq_claimLoop]
  cases top10ClaimLoop total (most_common c 10) with
  | error e => rfl
  | ok r =>
    dsimp only
    have h1 : "" ++ r.1 = r.1 := string_empty_append r.1
    have h2 : (100 : Int) - (100 - r.2) = r.2 := by ring
    rw [h1, h2]

/-- C3 counterexample: the original claim computes the percent as the
exact floor of `100 * count / total`, but the program uses binary64
arithmetic: for the counter X 29, Y 71 with total 100 the program emits
`X 28%` (`int(100*(29/100)) == 28`) and a remainder of 1, not the floor
values 29 and 0. -/
theorem C3_top10_float_counterexample :
    get_top_10_str 100 [("X", 29), ("Y", 71)] =
      .ok "Y 71% <br>X 28% <br>Other 1% <br>" ∧
    top10Claim 100 [("X", 29), ("Y", 71)] =
      "Y 71% <br>X 29% <br>Other 0% <br>" ∧
    ("Y 71% <br>X 28% <br>Other 1% <br>" : String) ≠
      "Y 71% <br>X 29% <br>Other 0% <br>" :=
  ⟨by rfl, by rfl, by decide⟩

/-- Witness for C3 at total 100 and counts A 50, B 30, C 20. -/
theorem C3_top10_formatter_witness :
    get_top_10_str 100 [("A", 50), ("B", 30), ("C", 20)] =
      top10ClaimF 100 [("A", 50), ("B", 30), ("C", 20)] ∧
    get_top_10_str 100 [("A", 50), ("B", 30), ("C", 20)] =
      .ok "A 50% <br>B 30% <br>C 20% <br>Other 0% <br>" ∧
    get_top_10_str 100 [("X", 100)] = .ok "X 100% <br>Other 0% <br>" :=
  C3_top10_formatter 100 [("A", 50), ("B", 30), ("C", 20)] (by decide)

/-! ### Claims C4 and C5: query and fasta summaries -/

theorem projectRowAux_keys (row : Row) (cols : List String) :
    ∀ (acc t : Row), cols.Nodup →
    (∀ c ∈ cols, c ∉ acc.map Prod.fst) →
    projectRowAux cols row acc = .ok t →
    t.map Prod.fst = acc.map Prod.fst ++ cols := by
  induction cols with
  | nil =>
    intro acc t _ _ h
    simp only [projectRowAux] at h
    cases h
    simp
  | cons c cs ih =>
    intro acc t hnd hdisj hok
    simp only [projectRowAux] at hok
    cases hv : dictGet row c with
    | none => rw [hv] at hok; cases hok
    | some v =>
      rw [hv] at hok
      have hnotin : c ∉ acc.map Prod.fst := hdisj c (by simp)
      have hins : dictInsert acc c v = acc ++ [(c, v)] :=
        dictInsert_eq_append _ _ _ hnotin
      have hdisj2 : ∀ c2 ∈ cs, c2 ∉ (dictInsert acc c v).map Prod.fst := by
        intro c2 hm
        rw [mem_keys_dictInsert]
        rintro (hin | heq)
        · exact hdisj c2 (by simp [hm]) hin
        · exact (List.nodup_cons.mp hnd).1 (heq ▸ hm)
      have hres := ih (dictInsert acc c v) t (List.nodup_cons.mp hnd).2 hdisj2 hok
      rw [hres, hins]
      simp

theorem projectRow_keys (row : Row) (cols : List String) (t : Row)
    (hnd : cols.Nodup) (h : projectRow cols row = .ok t) :
    t.map Prod.fst = cols := by
  simpa using projectRowAux_keys row cols [] t hnd (by simp) h

theorem make_query_eq (rows : List Row) (tc : List String)
    (hq : ∀ r2 ∈ rows, dictGet r2 "query_boolean" ≠ none) :
    make_query_summary_data rows tc =
      projectRows tc (rows.filter isQueryRow) := by
  induction rows with
  | nil => rfl
  | cons r rs ih =>
    have hr := hq r (by simp)
    have hrest : ∀ r2 ∈ rs, dictGet r2 "query_boolean" ≠ none :=
      fun r2 hm => hq r2 (by simp [hm])
    cases hqb : dictGet r "query_boolean" with
    | none => exact absurd hqb hr
    | some qb =>
      by_cases ht : qb = "True"
      · subst ht
        have hfil : isQueryRow r = true := by simp [isQueryRow, hqb]
        simp only [make_query_summary_data, hqb, List.filter_cons, hfil,
          if_pos rfl, ite_true]
        rw [ih hrest]
        rfl
      · have hfil : isQueryRow r = false := by simp [isQueryRow, hqb, ht]
        simp only [make_query_summary_data, hqb, List.filter_cons, hfil,
          if_neg ht, Bool.false_eq_true, ite_false]
        exact ih hrest

/-- C4: `make_query_summary_data` returns exactly the rows whose
`query_boolean` equals the literal `"True"`, in the original CSV order,
projected onto `config["table_content"]`; any successful projection keeps
exactly the configured columns (others are dropped). -/
theorem C4_query_summary (rows : List Row) (tc : List String) (r t : Row)
    (hq : ∀ r2 ∈ rows, dictGet r2 "query_boolean" ≠ none)
    (hnd : tc.Nodup) (hp : projectRow tc r = .ok t) :
    make_query_summary_data rows tc =
      projectRows tc (rows.filter isQueryRow) ∧
    t.map Prod.fst = tc :=
  ⟨make_query_eq rows tc hq, projectRow_keys r tc t hnd hp⟩

/-- Witness for C4: two query rows and a background row; the extra
`extra` column is dropped. -/
theorem C4_query_summary_witness :
    make_query_summary_data
      [[("name", "q1"), ("lineage", "B.1"), ("extra", "x"), ("query_boolean", "True")],
       [("name", "b1"), ("lineage", "B.2"), ("extra", "y"), ("query_boolean", "False")],
       [("name", "q2"), ("lineage", "B.3"), ("extra", "z"), ("query_boolean", "True")]]
      ["name", "lineage"] =
      projectRows ["name", "lineage"]
        (List.filter isQueryRow
          [[("name", "q1"), ("lineage", "B.1"), ("extra", "x"), ("query_boolean", "True")],
           [("name", "b1"), ("lineage", "B.2"), ("extra", "y"), ("query_boolean", "False")],
           [("name", "q2"), ("lineage", "B.3"), ("extra", "z"), ("query_boolean", "True")]]) ∧
    List.map Prod.fst [("name", "q1"), ("lineage", "B.1")] = ["name", "lineage"] :=
  C4_query_summary
    [[("name", "q1"), ("lineage", "B.1"), ("extra", "x"), ("query_boolean", "True")],
     [("name", "b1"), ("lineage", "B.2"), ("extra", "y"), ("query_boolean", "False")],
     [("name", "q2"), ("lineage", "B.3"), ("extra", "z"), ("query_boolean", "True")]]
    ["name", "lineage"]
    [("name", "q1"), ("lineage", "B.1"), ("extra", "x"), ("query_boolean", "True")]
    [("name", "q1"), ("lineage", "B.1")]
    (by decide) (by decide) (by rfl)

/-- C5: `make_fasta_summary_data` partitions the rows with
`source == "input_fasta"` losslessly: the `qc_status == "Pass"` ones,
projected, form the pass list and all other `input_fasta` rows form the
fail list; rows from other sources appear in neither. -/
theorem C5_fasta_partition (rows : List Row) (ftc : List String)
    (passExp failExp : List Row)
    (hs : ∀ r ∈ rows, dictGet r "source" ≠ none)
    (hq : ∀ r ∈ rows, dictGet r "source" = some "input_fasta" →
      dictGet r "qc_status" ≠ none)
    (hp : projectRows ftc (rows.filter isFastaPass) = .ok passExp)
    (hf : projectRows ftc (rows.filter isFastaFail) = .ok failExp) :
    make_fasta_summary_data rows ftc = .ok (passExp, failExp) := by
  induction rows generalizing passExp failExp with
  | nil =>
    simp only [List.filter_nil, projectRows] at hp hf
    cases hp; cases hf
    rfl
  | cons r rs ih =>
    have hsr := hs r (by simp)
    have hsrest : ∀ r2 ∈ rs, dictGet r2 "source" ≠ none :=
      fun r2 hm => hs r2 (by simp [hm])
    have hqrest : ∀ r2 ∈ rs, dictGet r2 "source" = some "input_fasta" →
        dictGet r2 "qc_status" ≠ none :=
      fun r2 hm => hq r2 (by simp [hm])
    cases hsrc : dictGet r "source" with
    | none => exact absurd hsrc hsr
    | some src =>
      by_cases hif : src = "input_fasta"
      · subst hif
        cases hqc : dictGet r "qc_status" with
        | none => exact absurd hqc (hq r (by simp) hsrc)
        | some qc =>
          by_cases hqp : qc = "Pass"
          · subst hqp
            have hfilp : isFastaPass r = true := by
              simp [isFastaPass, hsrc, hqc]
            have hfilf : isFastaFail r = false := by
              simp [isFastaFail, hsrc, hqc]
            rw [List.filter_cons, hfilp] at hp
            rw [List.filter_cons, hfilf] at hf
            simp only [ite_true, Bool.false_eq_true, ite_false] at hp hf
            simp only [projectRows] at hp
            cases hproj : projectRow ftc r with
            | error e => rw [hproj] at hp; cases hp
            | ok t =>
              rw [hproj] at hp
              cases hrest : projectRows ftc (rs.filter isFastaPass) with
              | error e => rw [hrest] at hp; cases hp
              | ok ts =>
                rw [hrest] at hp
                cases hp
                have := ih ts failExp hsrest hqrest hrest hf
                simp only [make_fasta_summary_data, hsrc, if_pos rfl, hproj,
                  hqc, this, ite_true]
          · have hfilp : isFastaPass r = false := by
              simp [isFastaPass, hsrc, hqc, hqp]
            have hfilf : isFastaFail r = true := by
              simp [isFastaFail, hsrc, hqc, hqp]
            rw [List.filter_cons, hfilp] at hp
            rw [List.filter_cons, hfilf] at hf
            simp only [ite_true, Bool.false_eq_true, ite_false] at hp hf
            simp only [projectRows] at hf
            cases hproj : projectRow ftc r with
            | error e => rw [hproj] at hf; cases hf
            | ok t =>
              rw [hproj] at hf
              cases hrest : projectRows ftc (rs.filter isFastaFail) with
              | error e => rw [hrest] at hf; cases hf
              | ok ts =>
                rw [hrest] at hf
                cases hf
                have := ih passExp ts hsrest hqrest hp hrest
                simp only [make_fasta_summary_data, hsrc, if_pos rfl, hproj,
                  hqc, this, if_neg hqp]
                simp
      · have hfilp : isFastaPass r = false := by
          simp [isFastaPass, hsrc, hif]
        have hfilf : isFastaFail r = false := by
          simp [isFastaFail, hsrc, hif]
        rw [List.filter_cons, hfilp] at hp
        rw [List.filter_cons, hfilf] at hf
        simp only [Bool.false_eq_true, ite_false] at hp hf
        have := ih passExp failExp hsrest hqrest hp hf
        simp only [make_fasta_summary_data, hsrc, if_neg hif, this]

/-- Witness for C5: two fasta rows (one Pass, one Fail) and one
background row. -/
theorem C5_fasta_partition_witness :
    make_fasta_summary_data
      [[("name", "f1"), ("source", "input_fasta"), ("qc_status", "Pass")],
       [("name", "b1"), ("source", "background"), ("qc_status", "Pass")],
       [("name", "f2"), ("source", "input_fasta"), ("qc_status", "Fail")]]
      ["name"] = .ok ([[("name", "f1")]], [[("name", "f2")]]) :=
  C5_fasta_partition
    [[("name", "f1"), ("source", "input_fasta"), ("qc_status", "Pass")],
     [("name", "b1"), ("source", "background"), ("qc_status", "Pass")],
     [("name", "f2"), ("source", "input_fasta"), ("qc_status", "Fail")]]
    ["name"] [[("name", "f1")]] [[("name", "f2")]]
    (by decide) (by decide) (by rfl) (by rfl)

/-! ### Claim C6: background data, later rows overwrite earlier ones -/

theorem gbLoop_get (cfg : Config) (fn : List String) (rows : List Row) :
    ∀ (acc res : List (String × Row)) (k : String),
    gbLoop cfg fn rows acc = .ok res →
    dictGet res k =
      rows.foldl
        (fun o r =>
          match bgEntry cfg fn r with
          | .ok kv => if kv.1 = k then some kv.2 else o
          | .error _ => o)
        (dictGet acc k) := by
  induction rows with
  | nil =>
    intro acc res k h
    simp only [gbLoop] at h
    cases h
    rfl
  | cons r rs ih =>
    intro acc res k h
    simp only [gbLoop] at h
    cases hb : bgEntry cfg fn r with
    | error e => rw [hb] at h; cases h
    | ok kv =>
      rw [hb] at h
      have := ih (dictInsert acc kv.1 kv.2) res k h
      rw [this]
      simp only [List.foldl_cons, hb]
      rw [dictGet_dictInsert]
      by_cases hk : kv.1 = k
      · rw [if_pos hk, if_pos hk.symm]
      · rw [if_neg hk, if_neg (fun q => hk q.symm)]

theorem gbLoop_nodup (cfg : Config) (fn : List String) (rows : List Row) :
    ∀ (acc res : List (String × Row)),
    (acc.map Prod.fst).Nodup → gbLoop cfg fn rows acc = .ok res →
    (res.map Prod.fst).Nodup := by
  induction rows with
  | nil =>
    intro acc res hn h
    simp only [gbLoop] at h
    cases h
    exact hn
  | cons r rs ih =>
    intro acc res hn h
    simp only [gbLoop] at h
    cases hb : bgEntry cfg fn r with
    | error e => rw [hb] at h; cases h
    | ok kv =>
      rw [hb] at h
      exact ih _ res (nodup_keys_dictInsert _ _ _ hn) h

/-- C6: the background mapping has at most one entry per key, and the
entry under any key is the one contributed by the last metadata row whose
background key (report column for query rows, background column otherwise)
is that key — later rows silently overwrite earlier ones. -/
theorem C6_background_overwrite (cfg : Config) (fn : List String)
    (rows : List Row) (res : List (String × Row)) (k : String)
    (h : get_background_data cfg fn rows = .ok res) :
    (res.map Prod.fst).Nodup ∧ dictGet res k = bgLast cfg fn rows k := by
  refine ⟨gbLoop_nodup cfg fn rows [] res (by simp) h, ?_⟩
  have := gbLoop_get cfg fn rows [] res k h
  rw [this]
  rfl

/-- Witness for C6: two rows with background key `"dup"`; the mapping has
one entry and it carries the second row's `Query = "False"` flag. -/
theorem C6_background_overwrite_witness :
    (([("dup", [("name", "dup"), ("Query", "False")])] :
        List (String × Row)).map Prod.fst).Nodup ∧
    dictGet [("dup", [("name", "dup"), ("Query", "False")])] "dup" =
      bgLast cfg6 fn6 rows6 "dup" :=
  C6_background_overwrite cfg6 fn6 rows6
    [("dup", [("name", "dup"), ("Query", "False")])] "dup" (by rfl)

/-! ### Claim C7: earliest/latest date tracking -/

theorem optMinUpd_some (e : PyDate) (ps : List PyDate) :
    optMinUpd (some e) ps = some (dateMinFold e ps) := by
  cases ps <;> rfl

theorem optMaxUpd_some (e : PyDate) (ps : List PyDate) :
    optMaxUpd (some e) ps = some (dateMaxFold e ps) := by
  cases ps <;> rfl

theorem dateMinFold_cons (e p : PyDate) (t : List PyDate) :
    dateMinFold e (p :: t) =
      dateMinFold (if p.toNat < e.toNat then p else e) t := rfl

theorem dateMaxFold_cons (e p : PyDate) (t : List PyDate) :
    dateMaxFold e (p :: t) =
      dateMaxFold (if p.toNat > e.toNat then p else e) t := rfl

theorem check_eq (p : PyDate) (s : CatchSumm) :
    check_earliest_latest_dates p s =
      { s with
        earliest_date := some (minItem p s.earliest_date)
        latest_date := some (maxItem p s.latest_date) } := by
  cases s with
  | mk tot e l lc lin =>
    cases e with
    | none =>
      cases l with
      | none => rfl
      | some ld =>
        simp only [check_earliest_latest_dates, minItem, maxItem]
        by_cases hb : p.toNat > ld.toNat <;> simp [hb]
    | some ed =>
      cases l with
      | none =>
        simp only [check_earliest_latest_dates, minItem, maxItem]
        by_cases ha : p.toNat < ed.toNat <;> simp [ha]
      | some ld =>
        simp only [check_earliest_latest_dates, minItem, maxItem]
        by_cases ha : p.toNat < ed.toNat <;>
          by_cases hb : p.toNat > ld.toNat <;>
          simp [ha, hb]

theorem minItem_fold (p : PyDate) (t : List PyDate) (o : Option PyDate) :
    optMinUpd (some (minItem p o)) t = optMinUpd o (p :: t) := by
  cases o with
  | none => rw [optMinUpd_some]; rfl
  | some e => rw [optMinUpd_some, optMinUpd_some, dateMinFold_cons]; rfl

theorem maxItem_fold (p : PyDate) (t : List PyDate) (o : Option PyDate) :
    optMaxUpd (some (maxItem p o)) t = optMaxUpd o (p :: t) := by
  cases o with
  | none => rw [optMaxUpd_some]; rfl
  | some e => rw [optMaxUpd_some, optMaxUpd_some, dateMaxFold_cons]; rfl

theorem dStep_foldl (ps : List PyDate) : ∀ (s : CatchSumm),
    ps.foldl dStep s =
      { s with
        total := s.total + ps.length
        earliest_date := optMinUpd s.earliest_date ps
        latest_date := optMaxUpd s.latest_date ps } := by
  induction ps with
  | nil => intro s; simp [optMinUpd, optMaxUpd]
  | cons p t ih =>
    intro s
    simp only [List.foldl_cons]
    rw [show dStep s p = check_earliest_latest_dates p
          { s with total := s.total + 1 } from rfl, check_eq, ih]
    simp only [minItem_fold, maxItem_fold, List.length_cons]
    congr 1
    omega

theorem processRow_dateRow (ds : String) (p : PyDate) (s : CatchSumm)
    (hd : fromisoformat ds = .ok p) :
    processRow "sample_date" "adm1" fn7 [("catchment_1", s)] (dateRow ds) =
      .ok [("catchment_1", dStep s p)] := by
  simp [processRow, dateRow, dictGet, dateStep, locStep, lineageStep, fn7,
    hd, dStep, dictInsert]

theorem runRows_dateRows (dates : List String) :
    ∀ (pds : List PyDate) (s : CatchSumm),
    parseDates dates = .ok pds →
    runRows "sample_date" "adm1" fn7 (dates.map dateRow)
      [("catchment_1", s)] = .ok [("catchment_1", pds.foldl dStep s)] := by
  induction dates with
  | nil =>
    intro pds s h
    simp only [parseDates] at h
    cases h
    rfl
  | cons d ds ih =>
    intro pds s h
    simp only [parseDates] at h
    cases hd : fromisoformat d with
    | error e => rw [hd] at h; cases h
    | ok p =>
      rw [hd] at h
      cases ht : parseDates ds with
      | error e => rw [ht] at h; cases h
      | ok ps =>
        rw [ht] at h
        cases h
        simp only [List.map_cons, runRows, processRow_dateRow d p s hd]
        exact ih ps (dStep s p) ht

/-- C7: with a date column configured and present, the catchment summary
parses each non-query row's date with `fromisoformat` and tracks the
per-catchment earliest and latest date — first date seen initializes both,
then min/max updates; the result is the minimum and maximum of the parsed
dates. -/
theorem C7_date_tracking (dates : List String) (pds : List PyDate)
    (p0 : PyDate) (prest : List PyDate)
    (hp : parseDates dates = .ok pds) (hpds : pds = p0 :: prest) :
    make_catchment_summary_data "sample_date" "adm1" fn7
      (dates.map dateRow) ["catchment_1"] =
      .ok [("catchment_1",
        { total := pds.length,
          earliest_date := some (dateMinFold p0 prest),
          latest_date := some (dateMaxFold p0 prest),
          locStr := none, lineageStr := none })] := by
  subst hpds
  have hrun := runRows_dateRows dates (p0 :: prest) initSumm hp
  simp only [make_catchment_summary_data, show initDict ["catchment_1"] =
    [("catchment_1", initSumm)] from rfl, hrun, dStep_foldl]
  simp [initSumm, optMinUpd, optMaxUpd, finalizeAll, finalizeSumm]

/-- Witness for C7: the dates 2020-03-01, 2020-01-05, 2020-06-10 give
earliest 2020-01-05 and latest 2020-06-10. -/
theorem C7_date_tracking_witness :
    make_catchment_summary_data "sample_date" "adm1" fn7
      (["2020-03-01", "2020-01-05", "2020-06-10"].map dateRow)
      ["catchment_1"] =
      .ok [("catchment_1",
        { total := 3,
          earliest_date := some ⟨2020, 1, 5⟩,
          latest_date := some ⟨2020, 6, 10⟩,
          locStr := none, lineageStr := none })] :=
  C7_date_tracking ["2020-03-01", "2020-01-05", "2020-06-10"]
    [⟨2020, 3, 1⟩, ⟨2020, 1, 5⟩, ⟨2020, 6, 10⟩]
    ⟨2020, 3, 1⟩ [⟨2020, 1, 5⟩, ⟨2020, 6, 10⟩] (by rfl) (by rfl)

/-! ### Claim C10: a non-query row outside the catchment list -/

theorem processRow_keys (dc lc : String) (fn : List String) (dict : CSDict)
    (row : Row) (d2 : CSDict)
    (h : processRow dc lc fn dict row = .ok d2) (k : String) :
    (dictGet d2 k).isSome = (dictGet dict k).isSome := by
  simp only [processRow] at h
  split at h
  · cases h
  · split at h
    · split at h
      · cases h
      · split at h
        · cases h
        · rename_i s0 hm
          split at h
          · cases h
          · split at h
            · cases h
            · split at h
              · cases h
              · split at h
                · cases h
                · cases h
                  rw [dictGet_dictInsert]
                  split
                  · rename_i hk
                    rw [hk, hm]
                    rfl
                  · rfl
    · cases h
      rfl

theorem runRows_keys (dc lc : String) (fn : List String) (rows : List Row) :
    ∀ (dict d2 : CSDict), runRows dc lc fn rows dict = .ok d2 →
    ∀ k, (dictGet d2 k).isSome = (dictGet dict k).isSome := by
  induction rows with
  | nil =>
    intro dict d2 h k
    simp only [runRows] at h
    cases h
    rfl
  | cons r rs ih =>
    intro dict d2 h k
    simp only [runRows] at h
    cases hp : processRow dc lc fn dict r with
    | error e => rw [hp] at h; cases h
    | ok dmid =>
      rw [hp] at h
      rw [ih dmid d2 h k, processRow_keys dc lc fn dict r dmid hp k]

theorem runRows_append (dc lc : String) (fn : List String)
    (as bs : List Row) : ∀ (dict : CSDict),
    runRows dc lc fn (as ++ bs) dict =
      match runRows dc lc fn as dict with
      | .ok d2 => runRows dc lc fn bs d2
      | .error e => .error e := by
  induction as with
  | nil => intro dict; rfl
  | cons r rs ih =>
    intro dict
    simp only [List.cons_append, runRows]
    cases hp : processRow dc lc fn dict r with
    | error e => rfl
    | ok dmid => exact ih dmid

theorem initDict_fold_get (cs : List String) : ∀ (d : CSDict) (c : String),
    dictGet (cs.foldl (fun d c2 => dictInsert d c2 initSumm) d) c =
      if cs.contains c then some initSumm else dictGet d c := by
  induction cs with
  | nil => intro d c; simp
  | cons c0 cs2 ih =>
    intro d c
    simp only [List.foldl_cons]
    rw [ih]
    have hcc : (c0 :: cs2).contains c = (c == c0 || cs2.contains c) := rfl
    by_cases hm : cs2.contains c = true
    · rw [if_pos hm, hcc, hm]
      simp
    · rw [if_neg hm, dictGet_dictInsert, hcc]
      by_cases he : c = c0
      · simp [he]
      · have hnm : c ∉ cs2 := by simpa using hm
        simp [he, hnm]

theorem initDict_get (cs : List String) (c : String) :
    dictGet (initDict cs) c =
      if cs.contains c then some initSumm else none := by
  simpa [initDict] using initDict_fold_get cs [] c

/-- C10: if a row with `query_boolean == "False"` carries a catchment
value that is not in the supplied catchments list (all earlier rows
processing fine), `make_catchment_summary_data` raises a `KeyError` on
that value — there is no membership check. -/
theorem C10_unknown_catchment (dc lc : String) (fn : List String)
    (pre post : List Row) (r : Row) (c : String) (catchments : List String)
    (dpre : CSDict)
    (h1 : runRows dc lc fn pre (initDict catchments) = .ok dpre)
    (h2 : dictGet r "query_boolean" = some "False")
    (h3 : dictGet r "catchment" = some c)
    (h4 : catchments.contains c = false) :
    make_catchment_summary_data dc lc fn (pre ++ r :: post) catchments =
      .error (.keyError c) := by
  have hkey : dictGet dpre c = none := by
    have hi := runRows_keys dc lc fn pre (initDict catchments) dpre h1 c
    rw [initDict_get, h4] at hi
    simp only [Bool.false_eq_true, if_false, Option.isSome_none] at hi
    cases hd : dictGet dpre c
    · rfl
    · rw [hd] at hi; cases hi
  simp only [make_catchment_summary_data]
  rw [runRows_append, h1]
  simp only [runRows, processRow, h2, h3, hkey, if_pos rfl]
  rfl

/-- Witness for C10: one non-query row whose catchment value is the empty
string (an unclustered row) while the catchments list is `[catchment_1]`. -/
theorem C10_unknown_catchment_witness :
    make_catchment_summary_data "sample_date" "adm1"
      ["query_boolean", "catchment"]
      [[("query_boolean", "False"), ("catchment", "")]] ["catchment_1"] =
      .error (.keyError "") :=
  C10_unknown_catchment "sample_date" "adm1" ["query_boolean", "catchment"]
    [] [] [("query_boolean", "False"), ("catchment", "")] "" ["catchment_1"]
    [("catchment_1", initSumm)] (by rfl) (by rfl) (by rfl) (by rfl)

/-! ### Claim C8: the render failure is caught, everything else is not -/

/-- C8: when the template render raises, `make_report` catches the
exception (the result is not an error), prints the traceback diagnostic to
standard output and still writes the partial buffer to the output path;
by contrast an aggregation error in `define_report_content` propagates to
the caller unrendered and unwritten. -/
theorem C8_render_failure_caught (cfg : Config) (fn : List String)
    (rows : List Row) (fs : String → Option (List String))
    (tl : String → Except PyError String)
    (render : Doc → List (String × Row) → RenderResult)
    (dfr : Doc) (bg : List (String × Row))
    (buffered : String) (frames : List TBFrame) (en em : String)
    (h1 : define_report_content cfg fn rows (mkCatchments cfg.catchment_count)
      fs tl = .ok dfr)
    (h2 : get_background_data cfg fn rows = .ok bg)
    (hr : render dfr bg = .err buffered frames en em) :
    make_report cfg fn rows fs tl render =
      .ok { fileContent := buffered
            stdoutLines := formatTraceback frames en em } ∧
    ∀ (cfg2 : Config) (fn2 : List String) (rows2 : List Row)
      (fs2 : String → Option (List String))
      (tl2 : String → Except PyError String)
      (render2 : Doc → List (String × Row) → RenderResult) (e : PyError),
      define_report_content cfg2 fn2 rows2
        (mkCatchments cfg2.catchment_count) fs2 tl2 = .error e →
      make_report cfg2 fn2 rows2 fs2 tl2 render2 = .error e := by
  constructor
  · simp only [make_report, h1, h2, hr]
  · intro cfg2 fn2 rows2 fs2 tl2 render2 e he
    simp only [make_report, he]

/-- Witness for C8: a renderer that raises `ZeroDivisionError` after
buffering `"PARTIAL"`; the file still receives `"PARTIAL"` and the
traceback is printed. -/
theorem C8_render_failure_caught_witness :
    make_report cfg8 [] [] fs0 tl0 render8 =
      .ok { fileContent := "PARTIAL"
            stdoutLines :=
              ["File template.html, line 3, in render_body",
               "broken line",
               "ZeroDivisionError: division by zero"] } :=
  (C8_render_failure_caught cfg8 [] [] fs0 tl0 render8 dfr8 [] "PARTIAL"
    [⟨"template.html", 3, "render_body", "broken line"⟩]
    "ZeroDivisionError" "division by zero"
    (by rfl) (by rfl) (by rfl)).1

/-! ### Claim C9: empty catchment list means NameError -/

/-- C9: with `config["catchment_count"] == 0` the catchments list is empty,
so the `'6'`/`'7'` sections of `define_report_content` read the never-bound
loop variable `catchment` and raise `NameError`; the error propagates out
of `make_report` (assuming the sections that run before them succeed). -/
theorem C9_empty_catchments (cfg : Config) (fn : List String)
    (rows : List Row) (fs : String → Option (List String))
    (tl : String → Except PyError String)
    (render : Doc → List (String × Row) → RenderResult)
    (hc : cfg.catchment_count = 0)
    (h1 : strContainsChar cfg.report_content '1' = true →
      (∃ q, make_query_summary_data rows cfg.table_content = .ok q) ∧
      (∃ pf, make_fasta_summary_data rows cfg.fasta_table_content = .ok pf))
    (h2 : strContainsChar cfg.report_content '2' = true →
      ∃ cs, make_catchment_summary_data cfg.date_column cfg.location_column
        fn rows [] = .ok cs) :
    define_report_content cfg fn rows [] fs tl =
      .error (.nameError "name catchment is not defined") ∧
    make_report cfg fn rows fs tl render =
      .error (.nameError "name catchment is not defined") := by
  obtain ⟨d1, hd1⟩ : ∃ d1, section1 cfg rows (initCatchDoc []) = .ok d1 := by
    by_cases hf : strContainsChar cfg.report_content '1' = true
    · obtain ⟨⟨q, hq⟩, pf, hpf⟩ := h1 hf
      exact ⟨_, by simp only [section1, hf, hq, hpf, ite_true]; rfl⟩
    · have hf2 : strContainsChar cfg.report_content '1' = false := by
        simpa using hf
      exact ⟨_, by simp only [section1, hf2, Bool.false_eq_true, ite_false]; rfl⟩
  obtain ⟨d2, hd2⟩ : ∃ d2, section2 cfg fn rows [] d1 = .ok d2 := by
    by_cases hf : strContainsChar cfg.report_content '2' = true
    · obtain ⟨cs, hcs⟩ := h2 hf
      exact ⟨d1, by simp only [section2, hf, hcs, ite_true, setEachM]⟩
    · exact ⟨_, by simp [section2, hf, setAllCatch]; rfl⟩
  have hd3 : section3 cfg [] fs d2 = .ok d2 := by
    by_cases hf : strContainsChar cfg.report_content '3' = true <;>
      simp [section3, hf, get_newick, setEachM, setAllCatch]
  have hd4 : section4 cfg [] fs d2 = .ok d2 := by
    by_cases hf : strContainsChar cfg.report_content '4' = true <;>
      simp [section4, hf, get_snipit, setEachM, setAllCatch]
  have hd5 : section5 cfg [] tl d2 = .ok d2 := by
    by_cases hf : strContainsChar cfg.report_content '5' = true <;>
      simp [section5, hf, setEachM, setAllCatch]
  have hdrc : define_report_content cfg fn rows [] fs tl =
      .error (.nameError "name catchment is not defined") := by
    simp only [define_report_content, hd1, hd2, hd3, hd4, hd5]
    rfl
  have hmk : mkCatchments cfg.catchment_count = [] := by rw [hc]; rfl
  refine ⟨hdrc, ?_⟩
  simp only [make_report, hmk, hdrc]

/-- Witness for C9: zero catchments, no content flags, empty metadata. -/
theorem C9_empty_catchments_witness :
    define_report_content cfg6 [] [] [] fs0 tl0 =
      .error (.nameError "name catchment is not defined") ∧
    make_report cfg6 [] [] fs0 tl0 render0 =
      .error (.nameError "name catchment is not defined") :=
  C9_empty_catchments cfg6 [] [] fs0 tl0 render0 (by rfl)
    (fun h => absurd h (by decide)) (fun h => absurd h (by decide))

/-! ### Claim C2: the SNPs branch crashes -/

/-- C2 (code bug): on a metadata file whose header has a `SNPs` column, the
first row with `query_boolean == "False"` makes
`make_catchment_summary_data` raise `AttributeError` — line 119 of
`report.py` stores `collections.defaultdict(list)` under the `"SNPs"` key
and line 120 calls `.append` on that defaultdict, which has no such
attribute.  No list of raw SNPs values is ever produced. -/
theorem C2_snps_attribute_error :
    make_catchment_summary_data "sample_date" "adm1"
      ["name", "query_boolean", "catchment", "SNPs"]
      [[("name", "seq1"), ("query_boolean", "False"),
        ("catchment", "catchment_1"), ("SNPs", "C123T")]]
      ["catchment_1"] =
    .error (.attributeError
      "collections.defaultdict object has no attribute append") := by rfl

/-! ### Claim C1: content-selector gating -/

theorem setCatchField_get (d : Doc) (c k : String) (v : CatchVal)
    (c2 : String) :
    dictGet (setCatchField d c k v) c2 =
      if c2 = c then (dictGet d c2).map (updTop k v) else dictGet d c2 := by
  induction d with
  | nil => by_cases h : c2 = c <;> simp [setCatchField, dictGet, h]
  | cons p ps ih =>
    rw [show setCatchField (p :: ps) c k v =
      (if p.1 = c then (p.1, updTop k v p.2) else p) :: setCatchField ps c k v
      from by simp [setCatchField]]
    by_cases hp : p.1 = c
    · rw [if_pos hp]
      simp only [dictGet]
      by_cases h2 : p.1 = c2
      · rw [if_pos h2, if_pos (h2.symm.trans hp), if_pos h2]
        rfl
      · rw [if_neg h2, ih]
        simp [h2]
    · rw [if_neg hp]
      simp only [dictGet]
      by_cases h2 : p.1 = c2
      · rw [if_pos h2, if_neg (fun q => hp (h2.trans q))]
        simp [h2]
      · rw [if_neg h2, ih]
        simp [h2]

theorem docField_setCatchField_self (d : Doc) (c k : String) (v : CatchVal)
    (s : List (String × CatchVal)) (hs : dictGet d c = some (.sub s)) :
    docField (setCatchField d c k v) c k = some v := by
  unfold docField
  rw [setCatchField_get, if_pos rfl, hs]
  simp [updTop, dictGet_dictInsert]

theorem docField_setCatchField_frame (d : Doc) (c k : String) (v : CatchVal)
    (c2 k2 : String) (h : c2 ≠ c ∨ k2 ≠ k) :
    docField (setCatchField d c k v) c2 k2 = docField d c2 k2 := by
  unfold docField
  rw [setCatchField_get]
  by_cases hc : c2 = c
  · rw [if_pos hc]
    have hk : k2 ≠ k := h.resolve_left (fun q => q hc)
    cases hv : dictGet d c2 with
    | none => rfl
    | some t =>
      cases t with
      | str s => rfl
      | rowsv r => rfl
      | sub s => simp [updTop, dictGet_dictInsert, hk]
  · rw [if_neg hc]

theorem isSubAt_setCatchField (d : Doc) (c2 c k : String) (v : CatchVal)
    (h : isSubAt d c2) : isSubAt (setCatchField d c k v) c2 := by
  obtain ⟨s, hs⟩ := h
  unfold isSubAt
  rw [setCatchField_get]
  by_cases hc : c2 = c
  · rw [if_pos hc, hs]
    exact ⟨dictInsert s k v, rfl⟩
  · rw [if_neg hc, hs]
    exact ⟨s, rfl⟩

theorem dictGet_setCatchField_nonsub (d : Doc) (c k : String) (v : CatchVal)
    (key : String) (x : TopVal) (hx : dictGet d key = some x)
    (hns : ∀ s, x ≠ .sub s) :
    dictGet (setCatchField d c k v) key = some x := by
  rw [setCatchField_get]
  by_cases hc : key = c
  · rw [if_pos hc, hx]
    cases x with
    | sub s => exact absurd rfl (hns s)
    | str s => rfl
    | rowsv r => rfl
  · rw [if_neg hc]
    exact hx

theorem setAllCatch_cons (c0 : String) (cs : List String) (k : String)
    (v : CatchVal) (d : Doc) :
    setAllCatch (c0 :: cs) k v d = setAllCatch cs k v (setCatchField d c0 k v) :=
  rfl

theorem setAllCatch_frame_k (cats : List String) (k : String) (v : CatchVal) :
    ∀ (d : Doc) (c k2 : String), k2 ≠ k →
    docField (setAllCatch cats k v d) c k2 = docField d c k2 := by
  induction cats with
  | nil => intro d c k2 _; rfl
  | cons c0 cs ih =>
    intro d c k2 hk
    rw [setAllCatch_cons, ih _ c k2 hk,
      docField_setCatchField_frame d c0 k v c k2 (Or.inr hk)]

theorem setAllCatch_isSubAt (cats : List String) (k : String) (v : CatchVal) :
    ∀ (d : Doc) (c : String), isSubAt d c →
    isSubAt (setAllCatch cats k v d) c := by
  induction cats with
  | nil => intro d c h; exact h
  | cons c0 cs ih =>
    intro d c h
    rw [setAllCatch_cons]
    exact ih _ c (isSubAt_setCatchField d c c0 k v h)

theorem setAllCatch_frame_notc (cats : List String) (k : String)
    (v : CatchVal) : ∀ (d : Doc) (c k2 : String), c ∉ cats →
    docField (setAllCatch cats k v d) c k2 = docField d c k2 := by
  induction cats with
  | nil => intro d c k2 _; rfl
  | cons c0 cs ih =>
    intro d c k2 hc
    rw [setAllCatch_cons, ih _ c k2 (fun q => hc (List.mem_cons.mpr (Or.inr q))),
      docField_setCatchField_frame d c0 k v c k2
        (Or.inl (fun q => hc (List.mem_cons.mpr (Or.inl q))))]

theorem setAllCatch_get_mem (cats : List String) (k : String) (v : CatchVal) :
    ∀ (d : Doc) (c : String), c ∈ cats → isSubAt d c →
    docField (setAllCatch cats k v d) c k = some v := by
  induction cats with
  | nil => intro d c h; cases h
  | cons c0 cs ih =>
    intro d c hm hsub
    rw [setAllCatch_cons]
    rcases List.mem_cons.mp hm with he | hm2
    · subst he
      by_cases hc : c ∈ cs
      · exact ih _ c hc (isSubAt_setCatchField d c c k v hsub)
      · rw [setAllCatch_frame_notc cs k v _ c k hc]
        obtain ⟨s, hs⟩ := hsub
        exact docField_setCatchField_self d c k v s hs
    · exact ih _ c hm2 (isSubAt_setCatchField d c c0 k v hsub)

theorem setAllCatch_top_nonsub (cats : List String) (k : String)
    (v : CatchVal) : ∀ (d : Doc) (key : String) (x : TopVal),
    dictGet d key = some x → (∀ s, x ≠ .sub s) →
    dictGet (setAllCatch cats k v d) key = some x := by
  induction cats with
  | nil => intro d key x hx _; exact hx
  | cons c0 cs ih =>
    intro d key x hx hns
    rw [setAllCatch_cons]
    exact ih _ key x (dictGet_setCatchField_nonsub d c0 k v key x hx hns) hns

theorem setEachM_frame_k (cats : List String) (k : String)
    (g : String → Except PyError CatchVal) :
    ∀ (d d2 : Doc), setEachM cats k g d = .ok d2 →
    ∀ (c k2 : String), k2 ≠ k → docField d2 c k2 = docField d c k2 := by
  induction cats with
  | nil =>
    intro d d2 h c k2 _
    cases h
    rfl
  | cons c0 cs ih =>
    intro d d2 h c k2 hk
    simp only [setEachM] at h
    cases hg : g c0 with
    | error e => rw [hg] at h; cases h
    | ok v =>
      rw [hg] at h
      rw [ih _ d2 h c k2 hk,
        docField_setCatchField_frame d c0 k v c k2 (Or.inr hk)]

theorem setEachM_isSubAt (cats : List String) (k : String)
    (g : String → Except PyError CatchVal) :
    ∀ (d d2 : Doc) (c : String), setEachM cats k g d = .ok d2 →
    isSubAt d c → isSubAt d2 c := by
  induction cats with
  | nil =>
    intro d d2 c h hs
    cases h
    exact hs
  | cons c0 cs ih =>
    intro d d2 c h hs
    simp only [setEachM] at h
    cases hg : g c0 with
    | error e => rw [hg] at h; cases h
    | ok v =>
      rw [hg] at h
      exact ih _ d2 c h (isSubAt_setCatchField d c c0 k v hs)

theorem setEachM_frame_notc (cats : List String) (k : String)
    (g : String → Except PyError CatchVal) :
    ∀ (d d2 : Doc) (c k2 : String), c ∉ cats →
    setEachM cats k g d = .ok d2 → docField d2 c k2 = docField d c k2 := by
  induction cats with
  | nil =>
    intro d d2 c k2 _ h
    cases h
    rfl
  | cons c0 cs ih =>
    intro d d2 c k2 hc h
    simp only [setEachM] at h
    cases hg : g c0 with
    | error e => rw [hg] at h; cases h
    | ok v =>
      rw [hg] at h
      rw [ih _ d2 c k2 (fun q => hc (List.mem_cons.mpr (Or.inr q))) h,
        docField_setCatchField_frame d c0 k v c k2
          (Or.inl (fun q => hc (List.mem_cons.mpr (Or.inl q))))]

theorem setEachM_get_mem (cats : List String) (k : String)
    (g : String → Except PyError CatchVal) :
    ∀ (d d2 : Doc) (c : String), setEachM cats k g d = .ok d2 →
    c ∈ cats → isSubAt d c →
    ∃ v, g c = .ok v ∧ docField d2 c k = some v := by
  induction cats with
  | nil => intro d d2 c _ h; cases h
  | cons c0 cs ih =>
    intro d d2 c h hm hsub
    simp only [setEachM] at h
    cases hg : g c0 with
    | error e => rw [hg] at h; cases h
    | ok v0 =>
      rw [hg] at h
      rcases List.mem_cons.mp hm with he | hm2
      · subst he
        by_cases hc : c ∈ cs
        · exact ih _ d2 c h hc (isSubAt_setCatchField d c c k v0 hsub)
        · refine ⟨v0, hg, ?_⟩
          rw [setEachM_frame_notc cs k g _ d2 c k hc h]
          obtain ⟨s, hs⟩ := hsub
          exact docField_setCatchField_self d c k v0 s hs
      · exact ih _ d2 c h hm2 (isSubAt_setCatchField d c c0 k v0 hsub)

theorem setEachM_top_nonsub (cats : List String) (k : String)
    (g : String → Except PyError CatchVal) :
    ∀ (d d2 : Doc) (key : String) (x : TopVal),
    setEachM cats k g d = .ok d2 →
    dictGet d key = some x → (∀ s, x ≠ .sub s) →
    dictGet d2 key = some x := by
  induction cats with
  | nil =>
    intro d d2 key x h hx _
    cases h
    exact hx
  | cons c0 cs ih =>
    intro d d2 key x h hx hns
    simp only [setEachM] at h
    cases hg : g c0 with
    | error e => rw [hg] at h; cases h
    | ok v =>
      rw [hg] at h
      exact ih _ d2 key x h
        (dictGet_setCatchField_nonsub d c0 k v key x hx hns) hns

theorem docField_dictInsert_ne (d : Doc) (key : String) (v : TopVal)
    (c k : String) (h : c ≠ key) :
    docField (dictInsert d key v) c k = docField d c k := by
  unfold docField
  rw [dictGet_dictInsert, if_neg h]

theorem isSubAt_dictInsert_ne (d : Doc) (key : String) (v : TopVal)
    (c : String) (h : c ≠ key) (hs : isSubAt d c) :
    isSubAt (dictInsert d key v) c := by
  obtain ⟨s, hv⟩ := hs
  exact ⟨s, by rw [dictGet_dictInsert, if_neg h, hv]⟩

theorem initFold_sub (l : List (Nat × String)) :
    ∀ (d : Doc) (c : String),
    (c ∈ l.map Prod.snd ∨ isSubAt d c) →
    isSubAt (l.foldl (fun d p =>
      dictInsert d p.2
        (.sub [("catchmentID", .str ("catchment_" ++ toString (p.1 + 1)))]))
      d) c := by
  induction l with
  | nil =>
    intro d c h
    rcases h with h | h
    · cases h
    · exact h
  | cons p t ih =>
    intro d c h
    simp only [List.foldl_cons]
    apply ih
    by_cases hc : c = p.2
    · right
      exact ⟨_, by rw [dictGet_dictInsert, if_pos hc]⟩
    · rcases h with hm | hsub
      · simp only [List.map_cons, List.mem_cons] at hm
        rcases hm with he | hm2
        · exact absurd he hc
        · left
          exact hm2
      · right
        exact isSubAt_dictInsert_ne d p.2 _ c hc hsub

theorem initCatchDoc_isSubAt (cats : List String) (c : String)
    (h : c ∈ cats) : isSubAt (initCatchDoc cats) c := by
  unfold initCatchDoc
  exact initFold_sub cats.enum [] c (Or.inl (by rw [List.enum_map_snd]; exact h))

theorem initFold_field (l : List (Nat × String)) (k : String)
    (hk : k ≠ "catchmentID") : ∀ (d : Doc) (c : String),
    docField d c k = none →
    docField (l.foldl (fun d p =>
      dictInsert d p.2
        (.sub [("catchmentID", .str ("catchment_" ++ toString (p.1 + 1)))]))
      d) c k = none := by
  induction l with
  | nil => intro d c h; exact h
  | cons p t ih =>
    intro d c h
    simp only [List.foldl_cons]
    apply ih
    unfold docField
    rw [dictGet_dictInsert]
    by_cases hc : c = p.2
    · rw [if_pos hc]
      show dictGet [("catchmentID",
        CatchVal.str ("catchment_" ++ toString (p.1 + 1)))] k = none
      simp only [dictGet]
      rw [if_neg (fun q => hk q.symm)]
    · rw [if_neg hc]
      unfold docField at h
      exact h

theorem initCatchDoc_field_none (cats : List String) (c k : String)
    (hk : k ≠ "catchmentID") : docField (initCatchDoc cats) c k = none := by
  unfold initCatchDoc
  exact initFold_field cats.enum k hk [] c rfl

theorem section1_shape (cfg : Config) (rows : List Row) (d d1 : Doc)
    (h : section1 cfg rows d = .ok d1) :
    ∃ vq vp vf : TopVal,
      d1 = dictInsert (dictInsert (dictInsert d "query_summary_data" vq)
        "fasta_summary_pass" vp) "fasta_summary_fail" vf ∧
      (∀ s, vq ≠ .sub s) ∧ (∀ s, vp ≠ .sub s) ∧ (∀ s, vf ≠ .sub s) ∧
      (strContainsChar cfg.report_content '1' = false →
        vq = .str "" ∧ vp = .str "" ∧ vf = .str "") ∧
      (strContainsChar cfg.report_content '1' = true →
        ∃ q pf, make_query_summary_data rows cfg.table_content = .ok q ∧
          make_fasta_summary_data rows cfg.fasta_table_content = .ok pf ∧
          vq = .rowsv q ∧ vp = .rowsv pf.1 ∧ vf = .rowsv pf.2) := by
  unfold section1 at h
  by_cases hf : strContainsChar cfg.report_content '1' = true
  · simp only [hf, ite_true] at h
    cases hq : make_query_summary_data rows cfg.table_content with
    | error e => rw [hq] at h; cases h
    | ok q =>
      rw [hq] at h
      cases hpf : make_fasta_summary_data rows cfg.fasta_table_content with
      | error e => rw [hpf] at h; cases h
      | ok pf =>
        rw [hpf] at h
        cases h
        refine ⟨.rowsv q, .rowsv pf.1, .rowsv pf.2, rfl, ?_, ?_, ?_, ?_, ?_⟩
        · intro s q2; cases q2
        · intro s q2; cases q2
        · intro s q2; cases q2
        · intro hff; rw [hf] at hff; cases hff
        · intro _
          exact ⟨q, pf, rfl, rfl, rfl, rfl, rfl⟩
  · have hf2 : strContainsChar cfg.report_content '1' = false := by
      simpa using hf
    simp only [hf2, Bool.false_eq_true, ite_false] at h
    cases h
    refine ⟨.str "", .str "", .str "", rfl, ?_, ?_, ?_, ?_, ?_⟩
    · intro s q2; cases q2
    · intro s q2; cases q2
    · intro s q2; cases q2
    · intro _; exact ⟨rfl, rfl, rfl⟩
    · intro hff; rw [hf2] at hff; cases hff

theorem sections67_shape (cfg : Config) (cats : List String) (d d7 : Doc)
    (h : sections67 cfg cats d = .ok d7) :
    ∃ cl, cats.getLast? = some cl ∧
      d7 = setCatchField (setCatchField d cl "map_background" (.str ""))
        cl "map_queries" (.str "") := by
  unfold sections67 at h
  cases hg : cats.getLast? with
  | none => rw [hg] at h; cases h
  | some cl =>
    rw [hg] at h
    simp only [ite_self] at h
    cases h
    exact ⟨cl, rfl, rfl⟩

theorem section2_facts (cfg : Config) (fn : List String) (rows : List Row)
    (cats : List String) (d d2 : Doc)
    (h : section2 cfg fn rows cats d = .ok d2) :
    (∀ c k2, k2 ≠ "catchment_summary_data" →
      docField d2 c k2 = docField d c k2) ∧
    (∀ c, isSubAt d c → isSubAt d2 c) ∧
    (∀ key x, dictGet d key = some x → (∀ s, x ≠ .sub s) →
      dictGet d2 key = some x) ∧
    (strContainsChar cfg.report_content '2' = false →
      ∀ c, c ∈ cats → isSubAt d c →
        docField d2 c "catchment_summary_data" = some (.str "")) := by
  unfold section2 at h
  by_cases hf : strContainsChar cfg.report_content '2' = true
  · simp only [hf, ite_true] at h
    cases hcs : make_catchment_summary_data cfg.date_column
        cfg.location_column fn rows cats with
    | error e => rw [hcs] at h; cases h
    | ok cs =>
      rw [hcs] at h
      refine ⟨fun c k2 hk => setEachM_frame_k cats _ _ d d2 h c k2 hk,
        fun c hs => setEachM_isSubAt cats _ _ d d2 c h hs,
        fun key x hx hns => setEachM_top_nonsub cats _ _ d d2 key x h hx hns,
        fun hff => ?_⟩
      rw [hf] at hff
      cases hff
  · have hf2 : strContainsChar cfg.report_content '2' = false := by
      simpa using hf
    simp only [hf2, Bool.false_eq_true, ite_false] at h
    cases h
    exact ⟨fun c k2 hk => setAllCatch_frame_k cats _ _ d c k2 hk,
      fun c hs => setAllCatch_isSubAt cats _ _ d c hs,
      fun key x hx hns => setAllCatch_top_nonsub cats _ _ d key x hx hns,
      fun _ c hm hs => setAllCatch_get_mem cats _ _ d c hm hs⟩

theorem section3_facts (cfg : Config) (cats : List String)
    (fs : String → Option (List String)) (d d2 : Doc)
    (h : section3 cfg cats fs d = .ok d2) :
    (∀ c k2, k2 ≠ "newick" → docField d2 c k2 = docField d c k2) ∧
    (∀ c, isSubAt d c → isSubAt d2 c) ∧
    (∀ key x, dictGet d key = some x → (∀ s, x ≠ .sub s) →
      dictGet d2 key = some x) ∧
    (strContainsChar cfg.report_content '3' = false →
      ∀ c, c ∈ cats → isSubAt d c →
        docField d2 c "newick" = some (.str "")) := by
  unfold section3 get_newick at h
  by_cases hf : strContainsChar cfg.report_content '3' = true
  · simp only [hf, ite_true] at h
    refine ⟨fun c k2 hk => setEachM_frame_k cats _ _ d d2 h c k2 hk,
      fun c hs => setEachM_isSubAt cats _ _ d d2 c h hs,
      fun key x hx hns => setEachM_top_nonsub cats _ _ d d2 key x h hx hns,
      fun hff => ?_⟩
    rw [hf] at hff
    cases hff
  · have hf2 : strContainsChar cfg.report_content '3' = false := by
      simpa using hf
    simp only [hf2, Bool.false_eq_true, ite_false] at h
    cases h
    exact ⟨fun c k2 hk => setAllCatch_frame_k cats _ _ d c k2 hk,
      fun c hs => setAllCatch_isSubAt cats _ _ d c hs,
      fun key x hx hns => setAllCatch_top_nonsub cats _ _ d key x hx hns,
      fun _ c hm hs => setAllCatch_get_mem cats _ _ d c hm hs⟩

theorem section4_facts (cfg : Config) (cats : List String)
    (fs : String → Option (List String)) (d d2 : Doc)
    (h : section4 cfg cats fs d = .ok d2) :
    (∀ c k2, k2 ≠ "snipit_svg" → docField d2 c k2 = docField d c k2) ∧
    (∀ c, isSubAt d c → isSubAt d2 c) ∧
    (∀ key x, dictGet d key = some x → (∀ s, x ≠ .sub s) →
      dictGet d2 key = some x) ∧
    (strContainsChar cfg.report_content '4' = false →
      ∀ c, c ∈ cats → isSubAt d c →
        docField d2 c "snipit_svg" = some (.str "")) := by
  unfold section4 get_snipit at h
  by_cases hf : strContainsChar cfg.report_content '4' = true
  · simp only [hf, ite_true] at h
    refine ⟨fun c k2 hk => setEachM_frame_k cats _ _ d d2 h c k2 hk,
      fun c hs => setEachM_isSubAt cats _ _ d d2 c h hs,
      fun key x hx hns => setEachM_top_nonsub cats _ _ d d2 key x h hx hns,
      fun hff => ?_⟩
    rw [hf] at hff
    cases hff
  · have hf2 : strContainsChar cfg.report_content '4' = false := by
      simpa using hf
    simp only [hf2, Bool.false_eq_true, ite_false] at h
    cases h
    exact ⟨fun c k2 hk => setAllCatch_frame_k cats _ _ d c k2 hk,
      fun c hs => setAllCatch_isSubAt cats _ _ d c hs,
      fun key x hx hns => setAllCatch_top_nonsub cats _ _ d key x hx hns,
      fun _ c hm hs => setAllCatch_get_mem cats _ _ d c hm hs⟩

theorem section5_facts (cfg : Config) (cats : List String)
    (tl : String → Except PyError String) (d d2 : Doc)
    (h : section5 cfg cats tl d = .ok d2) :
    (∀ c k2, k2 ≠ "timeline_data" → docField d2 c k2 = docField d c k2) ∧
    (∀ c, isSubAt d c → isSubAt d2 c) ∧
    (∀ key x, dictGet d key = some x → (∀ s, x ≠ .sub s) →
      dictGet d2 key = some x) ∧
    (strContainsChar cfg.report_content '5' = false →
      ∀ c, c ∈ cats → isSubAt d c →
        docField d2 c "timeline_data" = some (.str "")) := by
  unfold section5 at h
  by_cases hf : strContainsChar cfg.report_content '5' = true
  · simp only [hf, ite_true] at h
    refine ⟨fun c k2 hk => setEachM_frame_k cats _ _ d d2 h c k2 hk,
      fun c hs => setEachM_isSubAt cats _ _ d d2 c h hs,
      fun key x hx hns => setEachM_top_nonsub cats _ _ d d2 key x h hx hns,
      fun hff => ?_⟩
    rw [hf] at hff
    cases hff
  · have hf2 : strContainsChar cfg.report_content '5' = false := by
      simpa using hf
    simp only [hf2, Bool.false_eq_true, ite_false] at h
    cases h
    exact ⟨fun c k2 hk => setAllCatch_frame_k cats _ _ d c k2 hk,
      fun c hs => setAllCatch_isSubAt cats _ _ d c hs,
      fun key x hx hns => setAllCatch_top_nonsub cats _ _ d key x hx hns,
      fun _ c hm hs => setAllCatch_get_mem cats _ _ d c hm hs⟩

/-- C1 (amended): each summary kind is computed only when its flag occurs
in the selector: with `'1'` absent the query/fasta fields are empty strings
and with `'1'` present they carry the computed summaries; with `'2'`-`'5'`
absent the per-catchment fields are empty strings.  The `'6'`/`'7'` map
placeholders, however, are written only to the last catchment (the
leftover loop variable): any earlier catchment's sub-document lacks the
`map_background`/`map_queries` keys entirely. -/
theorem C1_selector_gating (cfg : Config) (fn : List String)
    (rows : List Row) (catchments : List String)
    (fs : String → Option (List String))
    (tl : String → Except PyError String) (d : Doc) (c cl : String)
    (hok : define_report_content cfg fn rows catchments fs tl = .ok d)
    (hdisj : ∀ c2 ∈ catchments, c2 ≠ "query_summary_data" ∧
      c2 ≠ "fasta_summary_pass" ∧ c2 ≠ "fasta_summary_fail")
    (hc : c ∈ catchments) (hcl : catchments.getLast? = some cl) :
    (strContainsChar cfg.report_content '1' = false →
      dictGet d "query_summary_data" = some (.str "") ∧
      dictGet d "fasta_summary_pass" = some (.str "") ∧
      dictGet d "fasta_summary_fail" = some (.str "")) ∧
    (strContainsChar cfg.report_content '1' = true →
      ∃ q pf, make_query_summary_data rows cfg.table_content = .ok q ∧
        make_fasta_summary_data rows cfg.fasta_table_content = .ok pf ∧
        dictGet d "query_summary_data" = some (.rowsv q) ∧
        dictGet d "fasta_summary_pass" = some (.rowsv pf.1) ∧
        dictGet d "fasta_summary_fail" = some (.rowsv pf.2)) ∧
    (strContainsChar cfg.report_content '2' = false →
      docField d c "catchment_summary_data" = some (.str "")) ∧
    (strContainsChar cfg.report_content '3' = false →
      docField d c "newick" = some (.str "")) ∧
    (strContainsChar cfg.report_content '4' = false →
      docField d c "snipit_svg" = some (.str "")) ∧
    (strContainsChar cfg.report_content '5' = false →
      docField d c "timeline_data" = some (.str "")) ∧
    docField d cl "map_background" = some (.str "") ∧
    docField d cl "map_queries" = some (.str "") ∧
    (c ≠ cl → docField d c "map_background" = none ∧
      docField d c "map_queries" = none) := by
  unfold define_report_content at hok
  split at hok
  · cases hok
  rename_i d1 h1
  split at hok
  · cases hok
  rename_i d2 h2
  split at hok
  · cases hok
  rename_i d3 h3
  split at hok
  · cases hok
  rename_i d4 h4
  split at hok
  · cases hok
  rename_i d5 h5
  obtain ⟨cl2, hcl2, hd⟩ := sections67_shape cfg catchments d5 d hok
  rw [hcl] at hcl2
  injection hcl2 with hcleq
  subst hcleq
  subst hd
  obtain ⟨vq, vp, vf, hd1, hnsq, hnsp, hnsf, hfalse1, htrue1⟩ :=
    section1_shape cfg rows (initCatchDoc catchments) d1 h1
  obtain ⟨f2frame, f2sub, f2top, f2set⟩ :=
    section2_facts cfg fn rows catchments d1 d2 h2
  obtain ⟨f3frame, f3sub, f3top, f3set⟩ :=
    section3_facts cfg catchments fs d2 d3 h3
  obtain ⟨f4frame, f4sub, f4top, f4set⟩ :=
    section4_facts cfg catchments fs d3 d4 h4
  obtain ⟨f5frame, f5sub, f5top, f5set⟩ :=
    section5_facts cfg catchments tl d4 d5 h5
  have hdisjc := hdisj c hc
  have hclmem : cl ∈ catchments := List.mem_of_mem_getLast? hcl
  have hdisjcl := hdisj cl hclmem
  -- top-level lookups inside d1
  have hq_d1 : dictGet d1 "query_summary_data" = some vq := by
    rw [hd1, dictGet_dictInsert, if_neg (by decide), dictGet_dictInsert,
      if_neg (by decide), dictGet_dictInsert, if_pos rfl]
  have hp_d1 : dictGet d1 "fasta_summary_pass" = some vp := by
    rw [hd1, dictGet_dictInsert, if_neg (by decide), dictGet_dictInsert,
      if_pos rfl]
  have hf_d1 : dictGet d1 "fasta_summary_fail" = some vf := by
    rw [hd1, dictGet_dictInsert, if_pos rfl]
  -- propagation of a non-sub top-level value from d1 to the final document
  have top_prop : ∀ (key : String) (x : TopVal), (∀ s, x ≠ .sub s) →
      dictGet d1 key = some x →
      dictGet (setCatchField (setCatchField d5 cl "map_background" (.str ""))
        cl "map_queries" (.str "")) key = some x := by
    intro key x hns hx
    have hx2 := f2top key x hx hns
    have hx3 := f3top key x hx2 hns
    have hx4 := f4top key x hx3 hns
    have hx5 := f5top key x hx4 hns
    exact dictGet_setCatchField_nonsub _ _ _ _ key x
      (dictGet_setCatchField_nonsub _ _ _ _ key x hx5 hns) hns
  -- sub-dictionary presence chains
  have hsub_d1 : ∀ c2 ∈ catchments, isSubAt d1 c2 := by
    intro c2 hm
    obtain ⟨e1, e2, e3⟩ := hdisj c2 hm
    rw [hd1]
    exact isSubAt_dictInsert_ne _ _ _ c2 e3
      (isSubAt_dictInsert_ne _ _ _ c2 e2
        (isSubAt_dictInsert_ne _ _ _ c2 e1
          (initCatchDoc_isSubAt catchments c2 hm)))
  have hsub_d2 : ∀ c2 ∈ catchments, isSubAt d2 c2 :=
    fun c2 hm => f2sub c2 (hsub_d1 c2 hm)
  have hsub_d3 : ∀ c2 ∈ catchments, isSubAt d3 c2 :=
    fun c2 hm => f3sub c2 (hsub_d2 c2 hm)
  have hsub_d4 : ∀ c2 ∈ catchments, isSubAt d4 c2 :=
    fun c2 hm => f4sub c2 (hsub_d3 c2 hm)
  have hsub_d5 : ∀ c2 ∈ catchments, isSubAt d5 c2 :=
    fun c2 hm => f5sub c2 (hsub_d4 c2 hm)
  -- frame for a per-catchment field through sections 6 and 7
  have frame67 : ∀ (c2 k2 : String), k2 ≠ "map_background" →
      k2 ≠ "map_queries" →
      docField (setCatchField (setCatchField d5 cl "map_background" (.str ""))
        cl "map_queries" (.str "")) c2 k2 = docField d5 c2 k2 := by
    intro c2 k2 hmb hmq
    rw [docField_setCatchField_frame _ _ _ _ c2 k2 (Or.inr hmq),
      docField_setCatchField_frame _ _ _ _ c2 k2 (Or.inr hmb)]
  refine ⟨?_, ?_, ?_, ?_, ?_, ?_, ?_, ?_, ?_⟩
  · intro hff
    obtain ⟨e1, e2, e3⟩ := hfalse1 hff
    subst e1; subst e2; subst e3
    exact ⟨top_prop _ _ hnsq hq_d1, top_prop _ _ hnsp hp_d1,
      top_prop _ _ hnsf hf_d1⟩
  · intro htt
    obtain ⟨q, pf, hq, hpf, e1, e2, e3⟩ := htrue1 htt
    subst e1; subst e2; subst e3
    exact ⟨q, pf, hq, hpf, top_prop _ _ hnsq hq_d1,
      top_prop _ _ hnsp hp_d1, top_prop _ _ hnsf hf_d1⟩
  · intro hff
    have hset := f2set hff c hc (hsub_d1 c hc)
    rw [frame67 c _ (by decide) (by decide),
      f5frame c _ (by decide), f4frame c _ (by decide),
      f3frame c _ (by decide)]
    exact hset
  · intro hff
    have hset := f3set hff c hc (hsub_d2 c hc)
    rw [frame67 c _ (by decide) (by decide),
      f5frame c _ (by decide), f4frame c _ (by decide)]
    exact hset
  · intro hff
    have hset := f4set hff c hc (hsub_d3 c hc)
    rw [frame67 c _ (by decide) (by decide), f5frame c _ (by decide)]
    exact hset
  · intro hff
    have hset := f5set hff c hc (hsub_d4 c hc)
    rw [frame67 c _ (by decide) (by decide)]
    exact hset
  · obtain ⟨s, hs⟩ := hsub_d5 cl hclmem
    rw [docField_setCatchField_frame _ _ _ _ cl "map_background"
      (Or.inr (by decide))]
    exact docField_setCatchField_self d5 cl "map_background" (.str "") s hs
  · obtain ⟨s, hs⟩ := isSubAt_setCatchField d5 cl cl "map_background"
      (.str "") (hsub_d5 cl hclmem)
    exact docField_setCatchField_self _ cl "map_queries" (.str "") s hs
  · intro hne
    have hframe : ∀ k2 : String,
        docField (setCatchField (setCatchField d5 cl "map_background"
          (.str "")) cl "map_queries" (.str "")) c k2 = docField d5 c k2 := by
      intro k2
      rw [docField_setCatchField_frame _ _ _ _ c k2 (Or.inl hne),
        docField_setCatchField_frame _ _ _ _ c k2 (Or.inl hne)]
    have hchain : ∀ k2 : String, k2 ≠ "timeline_data" → k2 ≠ "snipit_svg" →
        k2 ≠ "newick" → k2 ≠ "catchment_summary_data" →
        docField d5 c k2 = docField d1 c k2 := by
      intro k2 n5 n4 n3 n2
      rw [f5frame c k2 n5, f4frame c k2 n4, f3frame c k2 n3, f2frame c k2 n2]
    have hinit : ∀ k2 : String, k2 ≠ "catchmentID" →
        docField d1 c k2 = none := by
      intro k2 nid
      rw [hd1, docField_dictInsert_ne _ _ _ c k2 hdisjc.2.2,
        docField_dictInsert_ne _ _ _ c k2 hdisjc.2.1,
        docField_dictInsert_ne _ _ _ c k2 hdisjc.1]
      exact initCatchDoc_field_none catchments c k2 nid
    constructor
    · rw [hframe _, hchain _ (by decide) (by decide) (by decide) (by decide)]
      exact hinit _ (by decide)
    · rw [hframe _, hchain _ (by decide) (by decide) (by decide) (by decide)]
      exact hinit _ (by decide)

/-- C1 counterexample: with selector `"1"` and two catchments (empty
metadata), `define_report_content` leaves `catchment_1` without any
`map_background`/`map_queries` entry — those fields are not the empty
string for every catchment, only for the last one. -/
theorem C1_counterexample :
    define_report_content cfg1 [] [] ["catchment_1", "catchment_2"]
      fs0 tl0 = .ok dC1 ∧
    docField dC1 "catchment_1" "map_background" = none ∧
    docField dC1 "catchment_1" "map_queries" = none ∧
    docField dC1 "catchment_2" "map_background" = some (.str "") ∧
    docField dC1 "catchment_2" "map_queries" = some (.str "") :=
  ⟨by rfl, by rfl, by rfl, by rfl, by rfl⟩

/-- Witness for the amended C1, at selector `"1"`, two catchments and an
empty metadata file. -/
theorem C1_selector_gating_witness :
    dictGet dC1 "query_summary_data" = some (.rowsv []) ∧
    docField dC1 "catchment_1" "catchment_summary_data" = some (.str "") ∧
    docField dC1 "catchment_1" "newick" = some (.str "") ∧
    docField dC1 "catchment_2" "map_background" = some (.str "") ∧
    docField dC1 "catchment_1" "map_background" = none := by
  have H := C1_selector_gating cfg1 [] [] ["catchment_1", "catchment_2"]
    fs0 tl0 dC1 "catchment_1" "catchment_2" (by rfl) (by decide)
    (by decide) (by rfl)
  obtain ⟨q, pf, hq, hpf, e1, e2, e3⟩ := H.2.1 (by decide)
  have hq2 : (Except.ok [] : Except PyError (List Row)) = Except.ok q := hq
  injection hq2 with hq3
  refine ⟨?_, ?_, ?_, ?_, ?_⟩
  · rw [← hq3] at e1
    exact e1
  · exact H.2.2.1 (by decide)
  · exact H.2.2.2.1 (by decide)
  · exact H.2.2.2.2.2.2.1
  · exact (H.2.2.2.2.2.2.2.2 (by decide)).1

end Civet
